import Mathlib

/-!
Verification development for the MapMind WebSocket game server
(`server.js`).  The server drives a per-connection round lifecycle:
two simulated agents (Atlas and Nova) stream reasoning fragments on
independent timers, each finally producing a coordinate guess; when both
are done a rendezvous emits `analysis_complete` and stores the round
record as the pending finalization payload; `request_results` consumes
the payload and scores the round with a haversine distance.

The embedding below models:
  * the static agent configuration and guess generation (`AGENTS`,
    `makeAIGuess`),
  * the mock reasoning tables (`getAgentReasoning`),
  * the scoring pipeline (`haversineDistance`, `roundedDistance`,
    `finishRoundCore`, `finishRound`),
  * the per-connection protocol state machine (`step`, `run`) covering
    inbound commands and timer callbacks, with JavaScript numbers
    modelled as exact rationals (reals only inside the trigonometric
    distance), fallible code paths (property access on `undefined`)
    modelled as `Option`, and the closure-captured session objects of
    `simulateDualAI` modelled by a generation tag so that a timer owned
    by a discarded session does not mutate the live one.
-/

namespace MapMind

/-- The two competing agents. -/
inductive AgentId
  | atlas
  | nova
deriving DecidableEq

/-- A geographic coordinate `(lat, lng)`. -/
structure Coord where
  lat : ℚ
  lng : ℚ
deriving DecidableEq

/-- An agent guess `(lat, lng)`. -/
structure Guess where
  lat : ℚ
  lng : ℚ
deriving DecidableEq

/-- A round record from the external data supply: name, image reference,
true coordinate, optional difficulty tag. -/
structure RoundRecord where
  name : String
  image_url : String
  location : Coord
  difficulty : Option String
deriving DecidableEq

/-- Static agent configuration (`AGENTS` in the source): id string,
display name, color, guess-noise spread range in degrees. -/
structure AgentProfile where
  id : String
  name : String
  color : String
  spreadMin : ℚ
  spreadMax : ℚ
deriving DecidableEq

/-- `AGENTS`: atlas has spread range `[3, 18]`, nova `[5, 22]`. -/
def AGENTS : AgentId → AgentProfile
  | .atlas => ⟨"atlas", "Atlas", "#6c5ce7", 3, 18⟩
  | .nova => ⟨"nova", "Nova", "#ff6b6b", 5, 22⟩

/-- Configured maximum number of rounds. -/
def TOTAL_ROUNDS : ℕ := 5

/-- JavaScript `s || d` for a possibly-absent string: `undefined` and the
empty string (the only falsy string) fall back to the default. -/
def jsOrString (s : Option String) (d : String) : String :=
  match s with
  | none => d
  | some s => if s = "" then d else s

/-- `makeAIGuess`: add a bounded pseudo-random offset to the true
coordinate.  `r0` draws the spread within the agent range, `r1` and `r2`
are the latitude/longitude noise draws (each plays the role of one
`Math.random()` call, so lies in `[0, 1)`).  Latitude is clamped to
`[-85, 85]`; longitude gets a 1.5-times-wider offset and no clamp. -/
def makeAIGuess (actual : Coord) (agentId : AgentId) (r0 r1 r2 : ℚ) : Guess :=
  let mn := (AGENTS agentId).spreadMin
  let mx := (AGENTS agentId).spreadMax
  let spread := mn + r0 * (mx - mn)
  { lat := max (-85) (min 85 (actual.lat + (r1 - 1/2) * spread)),
    lng := actual.lng + (r2 - 1/2) * spread * (3/2) }

/-- The three difficulty-keyed fragment lists of one agent
(an object literal `\x7b easy, medium, hard \x7d` in the source). -/
structure ClueTable where
  easy : List String
  medium : List String
  hard : List String
deriving DecidableEq

/-- A defined value that a JavaScript property read `clueSet[difficulty]`
can produce on the three-key clue object literal: one of the own keys'
fragment arrays, or a member inherited from `Object.prototype` (a
method, or the object the `__proto__` accessor returns) — every one of
which is truthy.  `undefined` is `none` at the `Option` level. -/
inductive ClueValue
  | fragments (l : List String)
  | protoMember (name : String)
deriving DecidableEq

/-- The property names every plain object literal inherits from
`Object.prototype`, per ECMA-262 (methods, and the Annex-B `__proto__`
accessor); bracket access with any of these names yields a truthy
value, not `undefined`. -/
def objectPrototypeKeys : List String :=
  ["constructor", "hasOwnProperty", "isPrototypeOf", "propertyIsEnumerable",
   "toLocaleString", "toString", "valueOf", "__proto__",
   "__defineGetter__", "__defineSetter__", "__lookupGetter__", "__lookupSetter__"]

/-- JavaScript bracket access `clueSet[difficulty]`: the own keys are
consulted first, then the prototype chain (here `Object.prototype`);
only a miss on both yields `undefined`. -/
def ClueTable.lookup (t : ClueTable) (d : String) : Option ClueValue :=
  if d = "easy" then some (.fragments t.easy)
  else if d = "medium" then some (.fragments t.medium)
  else if d = "hard" then some (.fragments t.hard)
  else if d ∈ objectPrototypeKeys then some (.protoMember d)
  else none

/-- The `atlasClues` table of `getAgentReasoning`. -/
def atlasCluesTable (locationName : String) : ClueTable :=
    { easy :=
        ["Scanning architectural features and structural geometry...\n\n",
         "I can identify distinctive construction patterns consistent with a well-known landmark. ",
         "The building materials and surrounding urban layout narrow this to a specific region.\n\n",
         "Cross-referencing skyline silhouette with global landmark database...\n\n",
         "High confidence match. The structural signature and surrounding context point clearly to " ++
           jsOrString ((locationName.splitOn ",").get? 1) "this region" ++ "."],
      medium :=
        ["Analyzing urban density and infrastructure patterns...\n\n",
         "Street layout and signage style suggest a specific cultural region. ",
         "Vegetation type and climate indicators help narrow the latitude band.\n\n",
         "Checking road markings, vehicle types, and pedestrian behavior patterns...\n\n",
         "Multiple converging clues point to a specific metropolitan area. Moderately confident in my assessment."],
      hard :=
        ["Limited distinctive features visible. Running deep pattern analysis...\n\n",
         "Color palette of buildings and rooftops may indicate a regional style. ",
         "Attempting to identify vegetation species for climate zone placement.\n\n",
         "This is challenging. Few globally-unique markers present. Considering multiple candidate regions...\n\n",
         "Best estimate based on a combination of subtle architectural and environmental cues."] }

/-- The `novaClues` table of `getAgentReasoning`. -/
def novaCluesTable (locationName : String) : ClueTable :=
    { easy :=
        ["First instinct: this looks immediately recognizable...\n\n",
         "The overall vibe, crowd density, and tourist infrastructure are distinctive. ",
         "I\x27ve seen thousands of images from this angle — the proportions are unmistakable.\n\n",
         "Confirming against my visual memory of global landmarks...\n\n",
         "Strong gut feeling confirmed by visual analysis. This is almost certainly in " ++
           jsOrString ((locationName.splitOn ",").get? 1) "this area" ++ "."],
      medium :=
        ["Interesting scene. The energy and activity level tell me a lot...\n\n",
         "Typography on visible signs and the style of street furniture are culturally specific. ",
         "The quality of light and atmospheric haze help narrow the geographic zone.\n\n",
         "Weighing several possibilities based on the overall aesthetic...\n\n",
         "My intuition points to a specific city. Reasonably confident based on accumulated visual cues."],
      hard :=
        ["Hmm, this one is tricky. My initial impression is uncertain...\n\n",
         "Searching for any text, symbols, or brand logos that might reveal the region. ",
         "The color of the soil and type of vegetation might be my best clue here.\n\n",
         "Running through less common possibilities — this doesn\x27t match typical tourist spots...\n\n",
         "Going with my best guess. Low certainty but the subtle details push me toward one region."] }

/-- `getAgentReasoning`: `clueSet[difficulty] || clueSet.medium`.  Every
defined value a bracket read can produce here is truthy, so the medium
fallback runs exactly on `undefined`; in particular a difficulty tag
naming an inherited `Object.prototype` member returns that member
as-is, and the medium fragment set is not selected. -/
def getAgentReasoning (agentId : AgentId) (locationName : String) (difficulty : String) :
    ClueValue :=
  let clueSet := match agentId with
    | .atlas => atlasCluesTable locationName
    | .nova => novaCluesTable locationName
  (clueSet.lookup difficulty).getD (.fragments clueSet.medium)

/-- The `length` property of each inherited `Object.prototype` member:
a function's arity; the `__proto__` object has no numeric `length`
(reading it gives `undefined`, so the stream's `idx < length`
comparison is false from the first tick, an effective bound of 0). -/
def protoMemberLength : String → ℕ
  | "constructor" => 1
  | "hasOwnProperty" => 1
  | "isPrototypeOf" => 1
  | "propertyIsEnumerable" => 1
  | "__defineGetter__" => 2
  | "__defineSetter__" => 2
  | "__lookupGetter__" => 1
  | "__lookupSetter__" => 1
  | _ => 0

/-- What the stream interval iterates over, given the value
`getAgentReasoning` returned.  A fragment array streams its entries.
An inherited prototype member streams `length` many ticks whose
indexing yields `undefined` — serialized as an absent `text` field,
which this model abstracts as the empty string — before the terminal
tick. -/
def ClueValue.streamTexts : ClueValue → List String
  | .fragments l => l
  | .protoMember n => List.replicate (protoMemberLength n) ""

/-! ## Scoring -/

/-- JavaScript `Math.atan2 y x`. -/
noncomputable def atan2 (y x : ℝ) : ℝ :=
  if 0 < x then Real.arctan (y / x)
  else if x < 0 then
    (if 0 ≤ y then Real.arctan (y / x) + Real.pi else Real.arctan (y / x) - Real.pi)
  else if 0 < y then Real.pi / 2
  else if y < 0 then -(Real.pi / 2)
  else 0

/-- The haversine term `a` of `haversineDistance`. -/
noncomputable def havA (lat1 lng1 lat2 lng2 : ℚ) : ℝ :=
  Real.sin ((((lat2 : ℝ) - (lat1 : ℝ)) * Real.pi / 180) / 2) ^ 2 +
    Real.cos ((lat1 : ℝ) * Real.pi / 180) * Real.cos ((lat2 : ℝ) * Real.pi / 180) *
      Real.sin ((((lng2 : ℝ) - (lng1 : ℝ)) * Real.pi / 180) / 2) ^ 2

/-- `haversineDistance`: great-circle distance in kilometers
(`R = 6371`), with JavaScript numbers idealized as reals. -/
noncomputable def haversineDistance (lat1 lng1 lat2 lng2 : ℚ) : ℝ :=
  6371 * 2 *
    atan2 (Real.sqrt (havA lat1 lng1 lat2 lng2)) (Real.sqrt (1 - havA lat1 lng1 lat2 lng2))

/-- The per-round integer distance of a guess: `Math.round` of the
haversine distance from the guess to the true coordinate (in the
argument order used by `finishRound`). -/
noncomputable def roundedDistance (g : Guess) (actual : Coord) : ℤ :=
  round (haversineDistance g.lat g.lng actual.lat actual.lng)

/-! ## Outbound frames -/

/-- One entry of the `results` array of a `round_results` frame. -/
structure ResultEntry where
  agentId : AgentId
  name : String
  color : String
  guess : Guess
  distance : ℤ
deriving DecidableEq

/-- One entry of a leaderboard array. -/
structure LBEntry where
  id : AgentId
  name : String
  color : String
  totalDistance : ℤ
  roundWins : ℕ
deriving DecidableEq

/-- Outbound protocol frames, mirroring the wire `type` values. -/
inductive Frame
  | game_starting
  | countdown (count : ℕ)
  | round_start (round : ℕ) (totalRounds : ℕ) (photo : String) (locationName : String)
  | ai_stream (agent : AgentId) (text : String) (done : Bool)
      (guess : Option Guess) (confidence : Option ℤ)
  | analysis_complete
  | round_results (round : ℕ) (totalRounds : ℕ) (results : List ResultEntry)
      (actualLocation : Coord) (locationName : String) (isLastRound : Bool)
      (leaderboard : List LBEntry)
  | final_scoreboard (leaderboard : List LBEntry)
  | game_reset
deriving DecidableEq

/-! ## Session state -/

/-- The per-connection session object.  The `agentDistances`,
`roundWins` and `currentGuesses` maps have exactly the keys `atlas` and
`nova`, modelled as separate fields; `currentGuesses` entries are absent
(`undefined`) until the corresponding stream finishes. -/
structure SessionState where
  rounds : List RoundRecord
  currentRound : ℕ
  totalRounds : ℕ
  atlasDistance : ℤ
  novaDistance : ℤ
  atlasWins : ℕ
  novaWins : ℕ
  atlasGuess : Option Guess
  novaGuess : Option Guess
  pendingRoundData : Option RoundRecord

/-- A session as allocated by `start_game` and `play_again`. -/
def freshSession (rounds : List RoundRecord) : SessionState :=
  { rounds := rounds,
    currentRound := 0,
    totalRounds := min TOTAL_ROUNDS rounds.length,
    atlasDistance := 0,
    novaDistance := 0,
    atlasWins := 0,
    novaWins := 0,
    atlasGuess := none,
    novaGuess := none,
    pendingRoundData := none }

/-- The leaderboard snapshot: both agents with cumulative totals, sorted
ascending by total distance (two-element stable sort, so the enumeration
order atlas-before-nova is kept on ties). -/
def mkLeaderboard (s : SessionState) : List LBEntry :=
  let aE : LBEntry :=
    ⟨.atlas, (AGENTS .atlas).name, (AGENTS .atlas).color, s.atlasDistance, s.atlasWins⟩
  let nE : LBEntry :=
    ⟨.nova, (AGENTS .nova).name, (AGENTS .nova).color, s.novaDistance, s.novaWins⟩
  if nE.totalDistance < aE.totalDistance then [nE, aE] else [aE, nE]

/-- The scoring part of `finishRound`, given both guesses: add each
agent's rounded distance to its cumulative total, rank the two results
ascending by distance (stable two-element sort), credit a round win to
the sorted head only when its distance is strictly smaller, and build
the `round_results` frame. -/
noncomputable def finishRoundCore (s : SessionState) (gA gN : Guess) (rd : RoundRecord) :
    SessionState × Frame :=
  let actual := rd.location
  let dA := roundedDistance gA actual
  let dN := roundedDistance gN actual
  let s1 := { s with atlasDistance := s.atlasDistance + dA,
                     novaDistance := s.novaDistance + dN }
  let aE : ResultEntry := ⟨.atlas, (AGENTS .atlas).name, (AGENTS .atlas).color, gA, dA⟩
  let nE : ResultEntry := ⟨.nova, (AGENTS .nova).name, (AGENTS .nova).color, gN, dN⟩
  let sorted := if nE.distance < aE.distance then [nE, aE] else [aE, nE]
  let s2 := match sorted with
    | r0 :: r1 :: _ =>
      if r0.distance < r1.distance then
        match r0.agentId with
        | .atlas => { s1 with atlasWins := s1.atlasWins + 1 }
        | .nova => { s1 with novaWins := s1.novaWins + 1 }
      else s1
    | _ => s1
  let isLastRound := decide (s.totalRounds ≤ s.currentRound)
  (s2,
   .round_results s.currentRound s.totalRounds sorted actual rd.name isLastRound
     (mkLeaderboard s2))

/-- `finishRound`: reads both current guesses; a missing guess means the
JavaScript code dereferences `undefined` and throws, modelled as
`none`. -/
noncomputable def finishRound (s : SessionState) (rd : RoundRecord) :
    Option (SessionState × Frame) :=
  match s.atlasGuess, s.novaGuess with
  | some gA, some gN => some (finishRoundCore s gA gN rd)
  | _, _ => none

/-! ## Protocol state machine

The server is single-threaded: every state change happens inside either
an inbound-message handler or a timer callback.  A run of the system is
a sequence of such atomic events (`SchedEv`); timers that the source
never cancels are modelled as events that are no-ops once their guard
state is gone.  `simulateDualAI` and the `playRound` timeout capture the
session object by reference; a generation counter (`gen`) tracks whether
the captured object is still the connection's live session, so that a
stale timer's session mutations go to the discarded object (dropped)
while its outbound frames are still sent. -/

/-- Closure-local state of one `simulateDualAI` call: fragment cursors
and completion flags of both streams. -/
structure StreamCtl where
  roundData : RoundRecord
  atlasClues : List String
  novaClues : List String
  atlasIdx : ℕ
  novaIdx : ℕ
  atlasDone : Bool
  novaDone : Bool

/-- The outstanding timer context of a connection. -/
inductive Phase
  | idle
  | countdownTimer (count : ℕ)
  | playRoundWait
  | analysisWait (rd : RoundRecord) (gen : ℕ)
  | streaming (ctl : StreamCtl) (gen : ℕ)

/-- Whole per-connection state: the live session (if any), the session
generation counter, the outstanding timer context, and the frames sent
so far. -/
structure ConnState where
  session : Option SessionState
  gen : ℕ
  phase : Phase
  frames : List Frame

/-- The random draws of one terminal stream tick (`makeAIGuess` uses
three `Math.random()` calls). -/
structure Rand3 where
  r0 : ℚ
  r1 : ℚ
  r2 : ℚ

/-- Inbound commands.  `start_game` and `play_again` carry the
already-shuffled round list returned by the external supplier. -/
inductive ClientCmd
  | start_game (rounds : List RoundRecord)
  | request_results
  | next_round
  | show_scoreboard
  | play_again (rounds : List RoundRecord)

/-- One atomic scheduler event: an inbound message or a timer callback.
Terminal stream ticks carry the pseudo-random draws for the guess and
the confidence value. -/
inductive SchedEv
  | msg (c : ClientCmd)
  | countTick
  | playRoundFire
  | analysisFire
  | atlasTick (r : Rand3) (rc : ℚ)
  | novaTick (r : Rand3) (rc : ℚ)

/-- Apply a mutation to the session object captured at generation `g`:
it reaches the live session only if `g` is still the current
generation; otherwise the mutation lands on a discarded object. -/
def mutSession (conn : ConnState) (g : ℕ) (f : SessionState → SessionState) : ConnState :=
  if g = conn.gen then { conn with session := conn.session.map f } else conn

/-- `playRound`: read the current round record, advance the round index,
emit `round_start` (including the record's `name` as `locationName`),
and schedule `simulateDualAI`.  Reading past the end of the round list
would dereference `undefined` (modelled as `none`). -/
def playRound (conn : ConnState) : Option ConnState :=
  match conn.session with
  | none => none
  | some s =>
    match s.rounds.get? s.currentRound with
    | none => none
    | some rd =>
      some { conn with
        session := some { s with currentRound := s.currentRound + 1 },
        phase := .analysisWait rd conn.gen,
        frames := conn.frames ++
          [.round_start (s.currentRound + 1) s.totalRounds rd.image_url rd.name] }

/-- The body of `simulateDualAI` up to starting the two stream timers:
clear the captured session's current guesses and precompute both
agents' fragment lists from the round's difficulty
(`roundData.difficulty || "medium"`). -/
def startStreams (conn : ConnState) (rd : RoundRecord) (g : ℕ) : ConnState :=
  let difficulty := jsOrString rd.difficulty "medium"
  let conn1 := mutSession conn g (fun s => { s with atlasGuess := none, novaGuess := none })
  { conn1 with
    phase := .streaming
      { roundData := rd,
        atlasClues := (getAgentReasoning .atlas rd.name difficulty).streamTexts,
        novaClues := (getAgentReasoning .nova rd.name difficulty).streamTexts,
        atlasIdx := 0,
        novaIdx := 0,
        atlasDone := false,
        novaDone := false } g }

/-- One tick of the Atlas stream interval: emit the next fragment, or —
when the fragments are exhausted — generate the guess, store it in the
captured session, emit the terminal stream event, set the completion
flag, and run the rendezvous check against Nova's flag. -/
def atlasTickStep (conn : ConnState) (ctl : StreamCtl) (g : ℕ) (r : Rand3) (rc : ℚ) :
    ConnState :=
  if ctl.atlasDone then conn
  else if ctl.atlasIdx < ctl.atlasClues.length then
    { conn with
      phase := .streaming { ctl with atlasIdx := ctl.atlasIdx + 1 } g,
      frames := conn.frames ++
        [.ai_stream .atlas (ctl.atlasClues.getD ctl.atlasIdx "") false none none] }
  else
    let guess := makeAIGuess ctl.roundData.location .atlas r.r0 r.r1 r.r2
    let conn1 := mutSession conn g (fun s => { s with atlasGuess := some guess })
    let conn2 := { conn1 with
      phase := .streaming { ctl with atlasDone := true } g,
      frames := conn1.frames ++
        [.ai_stream .atlas "" true (some guess) (some (Int.floor ((55 : ℚ) + rc * 35)))] }
    if ctl.novaDone then
      let conn3 := mutSession conn2 g (fun s => { s with pendingRoundData := some ctl.roundData })
      { conn3 with frames := conn3.frames ++ [.analysis_complete] }
    else conn2

/-- One tick of the Nova stream interval (confidence range differs). -/
def novaTickStep (conn : ConnState) (ctl : StreamCtl) (g : ℕ) (r : Rand3) (rc : ℚ) :
    ConnState :=
  if ctl.novaDone then conn
  else if ctl.novaIdx < ctl.novaClues.length then
    { conn with
      phase := .streaming { ctl with novaIdx := ctl.novaIdx + 1 } g,
      frames := conn.frames ++
        [.ai_stream .nova (ctl.novaClues.getD ctl.novaIdx "") false none none] }
  else
    let guess := makeAIGuess ctl.roundData.location .nova r.r0 r.r1 r.r2
    let conn1 := mutSession conn g (fun s => { s with novaGuess := some guess })
    let conn2 := { conn1 with
      phase := .streaming { ctl with novaDone := true } g,
      frames := conn1.frames ++
        [.ai_stream .nova "" true (some guess) (some (Int.floor ((45 : ℚ) + rc * 45)))] }
    if ctl.atlasDone then
      let conn3 := mutSession conn2 g (fun s => { s with pendingRoundData := some ctl.roundData })
      { conn3 with frames := conn3.frames ++ [.analysis_complete] }
    else conn2

/-- One atomic event of the connection: the `ws.on("message")` dispatch
plus the timer callbacks.  `none` models an uncaught exception. -/
noncomputable def step (conn : ConnState) (e : SchedEv) : Option ConnState :=
  match e with
  | .msg (.start_game rounds) =>
    some { conn with
      session := some (freshSession rounds),
      gen := conn.gen + 1,
      phase := .countdownTimer 3,
      frames := conn.frames ++ [.game_starting] }
  | .msg .request_results =>
    match conn.session with
    | none => some conn
    | some s =>
      match s.pendingRoundData with
      | none => some conn
      | some rd =>
        let s1 := { s with pendingRoundData := none }
        match finishRound s1 rd with
        | none => none
        | some (s2, fr) =>
          some { conn with session := some s2, frames := conn.frames ++ [fr] }
  | .msg .next_round =>
    match conn.session with
    | none => some conn
    | some s =>
      if s.totalRounds ≤ s.currentRound then some conn
      else playRound conn
  | .msg .show_scoreboard =>
    match conn.session with
    | none => some conn
    | some s =>
      some { conn with frames := conn.frames ++ [.final_scoreboard (mkLeaderboard s)] }
  | .msg (.play_again rounds) =>
    some { conn with
      session := some (freshSession rounds),
      gen := conn.gen + 1,
      frames := conn.frames ++ [.game_reset] }
  | .countTick =>
    match conn.phase with
    | .countdownTimer c =>
      let phase' := if c - 1 = 0 then Phase.playRoundWait else Phase.countdownTimer (c - 1)
      some { conn with phase := phase', frames := conn.frames ++ [.countdown c] }
    | _ => some conn
  | .playRoundFire =>
    match conn.phase with
    | .playRoundWait => playRound conn
    | _ => some conn
  | .analysisFire =>
    match conn.phase with
    | .analysisWait rd g => some (startStreams conn rd g)
    | _ => some conn
  | .atlasTick r rc =>
    match conn.phase with
    | .streaming ctl g => some (atlasTickStep conn ctl g r rc)
    | _ => some conn
  | .novaTick r rc =>
    match conn.phase with
    | .streaming ctl g => some (novaTickStep conn ctl g r rc)
    | _ => some conn

/-- Run a schedule of events; a crash aborts the run. -/
noncomputable def run (conn : ConnState) : List SchedEv → Option ConnState
  | [] => some conn
  | e :: es =>
    match step conn e with
    | none => none
    | some c => run c es

/-- The connection state right after the socket opens. -/
def initConn : ConnState := ⟨none, 0, .idle, []⟩

/-- The `spread` value drawn by `makeAIGuess` from the agent's range. -/
def spreadOf (a : AgentId) (r0 : ℚ) : ℚ :=
  (AGENTS a).spreadMin + r0 * ((AGENTS a).spreadMax - (AGENTS a).spreadMin)

def pendNat (s : SessionState) : ℕ :=
  match s.pendingRoundData with
  | some _ => 1
  | none => 0

def potNat (conn : ConnState) : ℕ :=
  match conn.phase with
  | .analysisWait _ g => if g = conn.gen then 1 else 0
  | .streaming ctl g =>
    if g = conn.gen ∧ (ctl.atlasDone && ctl.novaDone) = false then 1 else 0
  | _ => 0

/-- Timer contexts never carry a generation from the future. -/
def GenOK (conn : ConnState) : Prop :=
  match conn.phase with
  | .analysisWait _ g => g ≤ conn.gen
  | .streaming _ g => g ≤ conn.gen
  | _ => True

/-- The inductive protocol invariant. -/
def StateInv (conn : ConnState) : Prop :=
  GenOK conn ∧
  ∀ s, conn.session = some s →
    (s.atlasWins + s.novaWins + pendNat s + potNat conn ≤ s.currentRound ∧
     0 ≤ s.atlasDistance ∧ 0 ≤ s.novaDistance)

/-- Round-win totals never exceed the round index, read off a run
result. -/
def winsBounded (o : Option ConnState) : Prop :=
  match o with
  | none => True
  | some c =>
    match c.session with
    | none => True
    | some s => s.atlasWins + s.novaWins ≤ s.currentRound

/-- Cumulative distances are non-negative, read off a run result. -/
def distancesNonneg (o : Option ConnState) : Prop :=
  match o with
  | none => True
  | some c =>
    match c.session with
    | none => True
    | some s => 0 ≤ s.atlasDistance ∧ 0 ≤ s.novaDistance

/-- Finalizing a list of rounds in sequence (each with its pair of
guesses recorded, as the streams do before the rendezvous). -/
noncomputable def finalizeRounds (s : SessionState)
    (L : List (Guess × Guess × RoundRecord)) : SessionState :=
  L.foldl
    (fun acc x =>
      (finishRoundCore
        { acc with atlasGuess := some x.1, novaGuess := some x.2.1 }
        x.1 x.2.1 x.2.2).1)
    s

/-- A concrete round record used in witnesses and counterexamples. -/
def parisRecord : RoundRecord := ⟨"Paris, France", "paris.jpg", ⟨48, 2⟩, none⟩

/-- A second concrete round record. -/
def berlinRecord : RoundRecord := ⟨"Berlin, Germany", "berlin.jpg", ⟨52, 13⟩, some "easy"⟩

/-- The frames of a run result (empty when the run crashed). -/
def framesOf (o : Option ConnState) : List Frame :=
  match o with
  | some c => c.frames
  | none => []

/-- Whether a frame is a `round_start` event whose `locationName` field
equals the given name. -/
def roundStartCarriesName (name : String) : Frame → Bool
  | .round_start _ _ _ n => n == name
  | _ => false

/-- Whether a frame is `analysis_complete`. -/
def isAC : Frame → Bool
  | .analysis_complete => true
  | _ => false

/-- Number of `analysis_complete` frames in a trace. -/
def countAC (fs : List Frame) : ℕ := fs.countP isAC

/-- Whether a frame is the given agent's terminal stream event
(`done = true`). -/
def isTerminal (a : AgentId) : Frame → Bool
  | .ai_stream a2 _ d _ _ => (decide (a2 = a)) && d
  | _ => false

/-- Every `analysis_complete` frame in the trace is preceded by a
terminal stream event of each agent. -/
def OrderOK (fs : List Frame) : Prop :=
  ∀ i, fs.get? i = some .analysis_complete →
    (∃ j f, j < i ∧ fs.get? j = some f ∧ isTerminal .atlas f = true) ∧
    (∃ j f, j < i ∧ fs.get? j = some f ∧ isTerminal .nova f = true)

/-- The stream control state set up by `simulateDualAI`. -/
def freshCtl (rd : RoundRecord) : StreamCtl :=
  { roundData := rd,
    atlasClues := (getAgentReasoning .atlas rd.name (jsOrString rd.difficulty "medium")).streamTexts,
    novaClues := (getAgentReasoning .nova rd.name (jsOrString rd.difficulty "medium")).streamTexts,
    atlasIdx := 0,
    novaIdx := 0,
    atlasDone := false,
    novaDone := false }

/-- The connection state right after `simulateDualAI` set up a round's
two streams (frames counted from this point on). -/
def streamingStart (s : SessionState) (g : ℕ) (rd : RoundRecord) : ConnState :=
  ⟨some { s with atlasGuess := none, novaGuess := none }, g, .streaming (freshCtl rd) g, []⟩

/-- Whether a scheduler event is one of the two stream-interval ticks. -/
def isTick : SchedEv → Bool
  | .atlasTick _ _ => true
  | .novaTick _ _ => true
  | _ => false

/-- The inductive invariant of one round's dual-stream phase: the
completion flags match the emitted terminal events and the stored
guesses, `analysis_complete` has been emitted exactly when both flags
are set, the pending payload is the round record exactly when both
flags are set (and the start value `p0` before), and every
`analysis_complete` is preceded by both terminal events. -/
def StreamInv (g : ℕ) (rd : RoundRecord) (p0 : Option RoundRecord) (conn : ConnState) :
    Prop :=
  ∃ ctl s,
    conn.gen = g ∧
    conn.phase = .streaming ctl g ∧
    conn.session = some s ∧
    ctl.roundData = rd ∧
    (ctl.atlasDone = true ↔ ∃ f ∈ conn.frames, isTerminal .atlas f = true) ∧
    (ctl.novaDone = true ↔ ∃ f ∈ conn.frames, isTerminal .nova f = true) ∧
    countAC conn.frames = (if ctl.atlasDone = true ∧ ctl.novaDone = true then 1 else 0) ∧
    s.pendingRoundData =
      (if ctl.atlasDone = true ∧ ctl.novaDone = true then some rd else p0) ∧
    s.atlasGuess.isSome = ctl.atlasDone ∧
    s.novaGuess.isSome = ctl.novaDone ∧
    OrderOK conn.frames

/-- A realizable interleaving of the two streams' twelve timer ticks
(five fragments plus one terminal tick per agent, in firing-time
order for the 450 ms/500 ms periods with the 200 ms stagger). -/
def dualTickSched : List SchedEv :=
  [.atlasTick ⟨1/2, 1/2, 1/2⟩ (1/2), .novaTick ⟨1/2, 1/2, 1/2⟩ (1/2),
   .atlasTick ⟨1/2, 1/2, 1/2⟩ (1/2), .novaTick ⟨1/2, 1/2, 1/2⟩ (1/2),
   .atlasTick ⟨1/2, 1/2, 1/2⟩ (1/2), .novaTick ⟨1/2, 1/2, 1/2⟩ (1/2),
   .atlasTick ⟨1/2, 1/2, 1/2⟩ (1/2), .novaTick ⟨1/2, 1/2, 1/2⟩ (1/2),
   .atlasTick ⟨1/2, 1/2, 1/2⟩ (1/2), .atlasTick ⟨1/2, 1/2, 1/2⟩ (1/2),
   .novaTick ⟨1/2, 1/2, 1/2⟩ (1/2), .novaTick ⟨1/2, 1/2, 1/2⟩ (1/2)]

/-- A client that completes round 1's analysis and then sends
`next_round` without ever sending `request_results`: realizable timer
order for round 1, then the stale pending payload survives into round
2's analysis, whose start clears the guesses. -/
def staleSched : List SchedEv :=
  [.msg (.start_game [parisRecord, berlinRecord]),
   .countTick, .countTick, .countTick, .playRoundFire, .analysisFire] ++
  dualTickSched ++
  [.msg .next_round, .analysisFire]

/-- The run result has a session whose pending payload is set while both
current guesses are missing. -/
def pendingWithoutGuess (o : Option ConnState) : Bool :=
  match o with
  | some c =>
    match c.session with
    | some s => s.pendingRoundData.isSome && s.atlasGuess.isNone && s.novaGuess.isNone
    | none => false
  | none => false

/-! ## Lemmas about the distance function -/

theorem sin_neg_sq (x : ℝ) : Real.sin (-x) ^ 2 = Real.sin x ^ 2 := by
  rw [Real.sin_neg]; ring

theorem havA_symm (lat1 lng1 lat2 lng2 : ℚ) :
    havA lat2 lng2 lat1 lng1 = havA lat1 lng1 lat2 lng2 := by
  unfold havA
  have h1 : (((lat1 : ℝ) - (lat2 : ℝ)) * Real.pi / 180) / 2 =
      -((((lat2 : ℝ) - (lat1 : ℝ)) * Real.pi / 180) / 2) := by ring
  have h2 : (((lng1 : ℝ) - (lng2 : ℝ)) * Real.pi / 180) / 2 =
      -((((lng2 : ℝ) - (lng1 : ℝ)) * Real.pi / 180) / 2) := by ring
  rw [h1, h2, sin_neg_sq, sin_neg_sq]
  ring

theorem havA_self (lat lng : ℚ) : havA lat lng lat lng = 0 := by
  unfold havA
  simp

theorem atan2_zero_one : atan2 0 1 = 0 := by
  unfold atan2
  rw [if_pos one_pos]
  simp [Real.arctan_zero]

theorem atan2_nonneg (y x : ℝ) (hy : 0 ≤ y) : 0 ≤ atan2 y x := by
  unfold atan2
  by_cases h1 : 0 < x
  · rw [if_pos h1, ← Real.arctan_zero]
    exact Real.arctan_strictMono.monotone (div_nonneg hy h1.le)
  · rw [if_neg h1]
    by_cases h2 : x < 0
    · rw [if_pos h2, if_pos hy]
      have := Real.neg_pi_div_two_lt_arctan (y / x)
      have := Real.pi_pos
      linarith
    · rw [if_neg h2]
      by_cases h3 : 0 < y
      · rw [if_pos h3]
        have := Real.pi_pos
        linarith
      · rw [if_neg h3, if_neg (not_lt.mpr hy)]

theorem haversineDistance_nonneg (lat1 lng1 lat2 lng2 : ℚ) :
    0 ≤ haversineDistance lat1 lng1 lat2 lng2 := by
  unfold haversineDistance
  have h := atan2_nonneg (Real.sqrt (havA lat1 lng1 lat2 lng2))
    (Real.sqrt (1 - havA lat1 lng1 lat2 lng2)) (Real.sqrt_nonneg _)
  nlinarith

theorem haversineDistance_self (lat lng : ℚ) : haversineDistance lat lng lat lng = 0 := by
  unfold haversineDistance
  rw [havA_self]
  simp [atan2_zero_one]

theorem roundedDistance_nonneg (g : Guess) (actual : Coord) : 0 ≤ roundedDistance g actual := by
  unfold roundedDistance
  rw [round_eq]
  rw [Int.floor_nonneg]
  have := haversineDistance_nonneg g.lat g.lng actual.lat actual.lng
  linarith

theorem roundedDistance_self (lat lng : ℚ) :
    roundedDistance ⟨lat, lng⟩ ⟨lat, lng⟩ = 0 := by
  unfold roundedDistance
  simp [haversineDistance_self]

/-- C8: the great-circle distance function is symmetric — for all
coordinate pairs `(lat1, lng1)` and `(lat2, lng2)`,
`haversineDistance` gives the same value with the arguments swapped —
and the distance from any coordinate to itself is `0`. -/
theorem haversine_symm_and_self_zero :
    (∀ lat1 lng1 lat2 lng2 : ℚ,
       haversineDistance lat1 lng1 lat2 lng2 = haversineDistance lat2 lng2 lat1 lng1) ∧
    (∀ lat lng : ℚ, haversineDistance lat lng lat lng = 0) := by
  constructor
  · intro lat1 lng1 lat2 lng2
    unfold haversineDistance
    rw [havA_symm]
  · exact haversineDistance_self

/-! ## Guess generation (C6) -/

/-- C6: for every round record and agent, the generated terminal guess
has latitude equal to the true latitude plus a bounded random offset,
the sum clamped to `[-85, 85]`, and longitude equal to the true
longitude plus an offset scaled 1.5 times the latitude offset bound,
with no clamping applied to longitude; the spread stays inside the
agent's configured range. -/
theorem make_ai_guess_offset_shape :
    ∀ (actual : Coord) (a : AgentId) (r0 r1 r2 : ℚ),
      0 ≤ r0 → r0 < 1 → 0 ≤ r1 → r1 < 1 → 0 ≤ r2 → r2 < 1 →
      ((makeAIGuess actual a r0 r1 r2).lat =
          max (-85) (min 85 (actual.lat + (r1 - 1/2) * spreadOf a r0)) ∧
       -85 ≤ (makeAIGuess actual a r0 r1 r2).lat ∧
       (makeAIGuess actual a r0 r1 r2).lat ≤ 85 ∧
       (makeAIGuess actual a r0 r1 r2).lng =
          actual.lng + (r2 - 1/2) * spreadOf a r0 * (3/2) ∧
       |(r1 - 1/2) * spreadOf a r0| ≤ spreadOf a r0 / 2 ∧
       |(r2 - 1/2) * spreadOf a r0 * (3/2)| ≤ (3/2) * (spreadOf a r0 / 2) ∧
       (AGENTS a).spreadMin ≤ spreadOf a r0 ∧
       spreadOf a r0 ≤ (AGENTS a).spreadMax) := by
  intro actual a r0 r1 r2 h00 h01 h10 h11 h20 h21
  have hd : (0 : ℚ) ≤ (AGENTS a).spreadMax - (AGENTS a).spreadMin := by
    cases a <;> norm_num [AGENTS]
  have hmn : (0 : ℚ) < (AGENTS a).spreadMin := by
    cases a <;> norm_num [AGENTS]
  have hs0 : (AGENTS a).spreadMin ≤ spreadOf a r0 := by
    unfold spreadOf; nlinarith
  have hs1 : spreadOf a r0 ≤ (AGENTS a).spreadMax := by
    unfold spreadOf; nlinarith
  have hspos : 0 < spreadOf a r0 := lt_of_lt_of_le hmn hs0
  have habs1 : |r1 - 1/2| ≤ 1/2 := abs_le.mpr ⟨by linarith, by linarith⟩
  have habs2 : |r2 - 1/2| ≤ 1/2 := abs_le.mpr ⟨by linarith, by linarith⟩
  refine ⟨rfl, le_max_left _ _, max_le (by norm_num) (min_le_left _ _), rfl, ?_, ?_, hs0, hs1⟩
  · rw [abs_mul, abs_of_pos hspos]
    calc |r1 - 1/2| * spreadOf a r0 ≤ (1/2) * spreadOf a r0 :=
          mul_le_mul_of_nonneg_right habs1 hspos.le
      _ = spreadOf a r0 / 2 := by ring
  · rw [abs_mul, abs_mul, abs_of_pos hspos, show |(3 : ℚ)/2| = 3/2 by norm_num]
    calc |r2 - 1/2| * spreadOf a r0 * (3/2) ≤ (1/2) * spreadOf a r0 * (3/2) := by
          nlinarith [abs_nonneg (r2 - 1/2)]
      _ = (3/2) * (spreadOf a r0 / 2) := by ring

/-- Witness for C6 at the concrete input `actual = (48, 2)`, agent
atlas, all three random draws `1/2`. -/
theorem make_ai_guess_offset_shape_witness :
    ((0 : ℚ) ≤ 1/2 ∧ (1/2 : ℚ) < 1) ∧
    ((makeAIGuess ⟨48, 2⟩ AgentId.atlas (1/2) (1/2) (1/2)).lat =
        max (-85) (min 85 ((48 : ℚ) + ((1/2 : ℚ) - 1/2) * spreadOf .atlas (1/2))) ∧
     -85 ≤ (makeAIGuess ⟨48, 2⟩ AgentId.atlas (1/2) (1/2) (1/2)).lat ∧
     (makeAIGuess ⟨48, 2⟩ AgentId.atlas (1/2) (1/2) (1/2)).lat ≤ 85 ∧
     (makeAIGuess ⟨48, 2⟩ AgentId.atlas (1/2) (1/2) (1/2)).lng =
        (2 : ℚ) + ((1/2 : ℚ) - 1/2) * spreadOf .atlas (1/2) * (3/2) ∧
     |((1/2 : ℚ) - 1/2) * spreadOf .atlas (1/2)| ≤ spreadOf .atlas (1/2) / 2 ∧
     |((1/2 : ℚ) - 1/2) * spreadOf .atlas (1/2) * (3/2)| ≤
        (3/2) * (spreadOf .atlas (1/2) / 2) ∧
     (AGENTS .atlas).spreadMin ≤ spreadOf .atlas (1/2) ∧
     spreadOf .atlas (1/2) ≤ (AGENTS .atlas).spreadMax) :=
  ⟨⟨by norm_num, by norm_num⟩,
   make_ai_guess_offset_shape ⟨48, 2⟩ .atlas (1/2) (1/2) (1/2)
     (by norm_num) (by norm_num) (by norm_num) (by norm_num) (by norm_num) (by norm_num)⟩

/-! ## Difficulty selection (C10) -/

theorem ClueTable.lookup_easy (t : ClueTable) :
    t.lookup "easy" = some (.fragments t.easy) := rfl

theorem ClueTable.lookup_medium (t : ClueTable) :
    t.lookup "medium" = some (.fragments t.medium) := rfl

theorem ClueTable.lookup_hard (t : ClueTable) :
    t.lookup "hard" = some (.fragments t.hard) := rfl

theorem ClueTable.lookup_proto (t : ClueTable) (d : String)
    (h1 : d ≠ "easy") (h2 : d ≠ "medium") (h3 : d ≠ "hard")
    (hp : d ∈ objectPrototypeKeys) : t.lookup d = some (.protoMember d) := by
  unfold ClueTable.lookup
  rw [if_neg h1, if_neg h2, if_neg h3, if_pos hp]

theorem ClueTable.lookup_unknown (t : ClueTable) (d : String)
    (h1 : d ≠ "easy") (h2 : d ≠ "medium") (h3 : d ≠ "hard")
    (hp : d ∉ objectPrototypeKeys) : t.lookup d = none := by
  unfold ClueTable.lookup
  rw [if_neg h1, if_neg h2, if_neg h3, if_neg hp]

/-- Counterexample for C10: the difficulty value "constructor" is none
of easy, medium, hard, yet bracket access finds the inherited truthy
member `Object.prototype.constructor`, so `getAgentReasoning` returns
that member for both agents and not the medium fragment set — the
claimed universal fallback to medium for unknown tags, and with it
"fragment selection never fails", is false at this input. -/
theorem difficulty_proto_key_cex :
    ("constructor" ≠ "easy" ∧ "constructor" ≠ "medium" ∧ "constructor" ≠ "hard") ∧
    getAgentReasoning .atlas "Paris, France" "constructor" =
      .protoMember "constructor" ∧
    getAgentReasoning .atlas "Paris, France" "constructor" ≠
      .fragments (atlasCluesTable "Paris, France").medium ∧
    getAgentReasoning .nova "Paris, France" "constructor" =
      .protoMember "constructor" ∧
    getAgentReasoning .nova "Paris, France" "constructor" ≠
      .fragments (novaCluesTable "Paris, France").medium := by
  refine ⟨⟨?_, ?_, ?_⟩, rfl, ?_, rfl, ?_⟩ <;> decide

/-- C10 (amended): an absent (or empty, the only falsy string)
difficulty tag is effectively "medium" when `simulateDualAI` starts the
streams; a tag other than easy, medium and hard that names no inherited
`Object.prototype` member selects the medium fragment set for both
agents; a tag naming an inherited member returns that truthy member,
so the medium fallback does not run; and selection is total — it
always yields a fragment set or an inherited member, never
`undefined`. -/
theorem difficulty_fallback_medium_amended :
    (∀ (conn : ConnState) (rd : RoundRecord) (g : ℕ),
       rd.difficulty = none ∨ rd.difficulty = some "" →
       (startStreams conn rd g).phase =
         .streaming
           ⟨rd, (getAgentReasoning .atlas rd.name "medium").streamTexts,
            (getAgentReasoning .nova rd.name "medium").streamTexts,
            0, 0, false, false⟩ g) ∧
    (∀ (a : AgentId) (name d : String),
       d ≠ "easy" → d ≠ "medium" → d ≠ "hard" → d ∉ objectPrototypeKeys →
       getAgentReasoning a name d = getAgentReasoning a name "medium") ∧
    (∀ (a : AgentId) (name d : String),
       d ∈ objectPrototypeKeys →
       getAgentReasoning a name d = .protoMember d) ∧
    (∀ (a : AgentId) (name d : String),
       (∃ l, getAgentReasoning a name d = .fragments l) ∨
       getAgentReasoning a name d = .protoMember d) := by
  refine ⟨?_, ?_, ?_, ?_⟩
  · intro conn rd g h
    rcases h with h | h <;> simp [startStreams, jsOrString, h]
  · intro a name d h1 h2 h3 hp
    cases a <;>
      simp [getAgentReasoning, ClueTable.lookup_unknown _ d h1 h2 h3 hp,
        ClueTable.lookup_medium]
  · intro a name d hp
    have h1 : d ≠ "easy" := by rintro rfl; revert hp; decide
    have h2 : d ≠ "medium" := by rintro rfl; revert hp; decide
    have h3 : d ≠ "hard" := by rintro rfl; revert hp; decide
    cases a <;> simp [getAgentReasoning, ClueTable.lookup_proto _ d h1 h2 h3 hp]
  · intro a name d
    by_cases h1 : d = "easy"
    · subst h1
      cases a <;> exact Or.inl ⟨_, rfl⟩
    · by_cases h2 : d = "medium"
      · subst h2
        cases a <;> exact Or.inl ⟨_, rfl⟩
      · by_cases h3 : d = "hard"
        · subst h3
          cases a <;> exact Or.inl ⟨_, rfl⟩
        · by_cases hp : d ∈ objectPrototypeKeys
          · refine Or.inr ?_
            cases a <;>
              simp [getAgentReasoning, ClueTable.lookup_proto _ d h1 h2 h3 hp]
          · refine Or.inl ?_
            cases a
            · exact ⟨(atlasCluesTable name).medium, by
                simp [getAgentReasoning, ClueTable.lookup_unknown _ d h1 h2 h3 hp,
                  ClueTable.lookup_medium]⟩
            · exact ⟨(novaCluesTable name).medium, by
                simp [getAgentReasoning, ClueTable.lookup_unknown _ d h1 h2 h3 hp,
                  ClueTable.lookup_medium]⟩

/-- Witness for the amended C10 at a concrete record without a
difficulty tag, a concrete unknown tag, and a concrete inherited
`Object.prototype` name. -/
theorem difficulty_fallback_medium_amended_witness :
    (parisRecord.difficulty = none ∨ parisRecord.difficulty = some "") ∧
    (startStreams initConn parisRecord 0).phase =
      .streaming
        ⟨parisRecord, (getAgentReasoning .atlas "Paris, France" "medium").streamTexts,
         (getAgentReasoning .nova "Paris, France" "medium").streamTexts,
         0, 0, false, false⟩ 0 ∧
    ("extreme" ≠ "easy" ∧ "extreme" ≠ "medium" ∧ "extreme" ≠ "hard" ∧
      "extreme" ∉ objectPrototypeKeys) ∧
    getAgentReasoning .atlas "Paris, France" "extreme" =
      getAgentReasoning .atlas "Paris, France" "medium" ∧
    "toString" ∈ objectPrototypeKeys ∧
    getAgentReasoning .nova "Paris, France" "toString" = .protoMember "toString" :=
  ⟨Or.inl rfl,
   difficulty_fallback_medium_amended.1 initConn parisRecord 0 (Or.inl rfl),
   ⟨by decide, by decide, by decide, by decide⟩,
   difficulty_fallback_medium_amended.2.1 .atlas "Paris, France" "extreme"
     (by decide) (by decide) (by decide) (by decide),
   by decide,
   difficulty_fallback_medium_amended.2.2.1 .nova "Paris, France" "toString" (by decide)⟩

/-! ## Scoring lemmas (C2, C3) -/

theorem finishRoundCore_atlasWins (s : SessionState) (gA gN : Guess) (rd : RoundRecord) :
    (finishRoundCore s gA gN rd).1.atlasWins =
      s.atlasWins +
        (if roundedDistance gA rd.location < roundedDistance gN rd.location then 1 else 0) := by
  unfold finishRoundCore
  by_cases h : roundedDistance gN rd.location < roundedDistance gA rd.location
  · simp [h, lt_asymm h]
  · by_cases h2 : roundedDistance gA rd.location < roundedDistance gN rd.location
    · simp [h, h2]
    · simp [h, h2]

theorem finishRoundCore_novaWins (s : SessionState) (gA gN : Guess) (rd : RoundRecord) :
    (finishRoundCore s gA gN rd).1.novaWins =
      s.novaWins +
        (if roundedDistance gN rd.location < roundedDistance gA rd.location then 1 else 0) := by
  unfold finishRoundCore
  by_cases h : roundedDistance gN rd.location < roundedDistance gA rd.location
  · simp [h]
  · by_cases h2 : roundedDistance gA rd.location < roundedDistance gN rd.location
    · simp [h, h2]
    · simp [h, h2]

theorem finishRoundCore_atlasDistance (s : SessionState) (gA gN : Guess) (rd : RoundRecord) :
    (finishRoundCore s gA gN rd).1.atlasDistance =
      s.atlasDistance + roundedDistance gA rd.location := by
  unfold finishRoundCore
  by_cases h : roundedDistance gN rd.location < roundedDistance gA rd.location
  · simp [h]
  · by_cases h2 : roundedDistance gA rd.location < roundedDistance gN rd.location
    · simp [h, h2]
    · simp [h, h2]

theorem finishRoundCore_novaDistance (s : SessionState) (gA gN : Guess) (rd : RoundRecord) :
    (finishRoundCore s gA gN rd).1.novaDistance =
      s.novaDistance + roundedDistance gN rd.location := by
  unfold finishRoundCore
  by_cases h : roundedDistance gN rd.location < roundedDistance gA rd.location
  · simp [h]
  · by_cases h2 : roundedDistance gA rd.location < roundedDistance gN rd.location
    · simp [h, h2]
    · simp [h, h2]

theorem finishRoundCore_pending (s : SessionState) (gA gN : Guess) (rd : RoundRecord) :
    (finishRoundCore s gA gN rd).1.pendingRoundData = s.pendingRoundData := by
  unfold finishRoundCore
  by_cases h : roundedDistance gN rd.location < roundedDistance gA rd.location
  · simp [h]
  · by_cases h2 : roundedDistance gA rd.location < roundedDistance gN rd.location
    · simp [h, h2]
    · simp [h, h2]

theorem finishRoundCore_currentRound (s : SessionState) (gA gN : Guess) (rd : RoundRecord) :
    (finishRoundCore s gA gN rd).1.currentRound = s.currentRound := by
  unfold finishRoundCore
  by_cases h : roundedDistance gN rd.location < roundedDistance gA rd.location
  · simp [h]
  · by_cases h2 : roundedDistance gA rd.location < roundedDistance gN rd.location
    · simp [h, h2]
    · simp [h, h2]

/-! ## Protocol invariant

`pendNat` counts the pending-finalization payload, `potNat` counts the
at-most-one round-finalization opportunity still in flight for the live
session (a scheduled `simulateDualAI` or an unfinished stream pair);
each `playRound` increments the round index and creates at most one
such opportunity, and each `request_results` consumes the payload, so
`wins + pending + potential ≤ currentRound` is inductive. -/

theorem potNat_gen_bump (conn c2 : ConnState) (hg : GenOK conn)
    (hp : c2.phase = conn.phase) (hgen : c2.gen = conn.gen + 1) : potNat c2 = 0 := by
  unfold potNat
  unfold GenOK at hg
  rw [hp, hgen]
  cases hph : conn.phase with
  | analysisWait rd g =>
    rw [hph] at hg
    have hg2 : g ≤ conn.gen := hg
    show (if g = conn.gen + 1 then 1 else 0) = 0
    rw [if_neg (by omega)]
  | streaming ctl g =>
    rw [hph] at hg
    have hg2 : g ≤ conn.gen := hg
    show (if g = conn.gen + 1 ∧ (ctl.atlasDone && ctl.novaDone) = false then 1 else 0) = 0
    rw [if_neg (by rintro ⟨h1, h2⟩; omega)]
  | idle => rfl
  | countdownTimer c => rfl
  | playRoundWait => rfl

theorem potNat_le_one (conn : ConnState) : potNat conn ≤ 1 := by
  unfold potNat
  cases conn.phase with
  | analysisWait rd g =>
    show (if g = conn.gen then 1 else 0) ≤ 1
    split <;> omega
  | streaming ctl g =>
    show (if g = conn.gen ∧ (ctl.atlasDone && ctl.novaDone) = false then 1 else 0) ≤ 1
    split <;> omega
  | idle => exact Nat.zero_le 1
  | countdownTimer c => exact Nat.zero_le 1
  | playRoundWait => exact Nat.zero_le 1

/-- Transfer the invariant when the session is unchanged and the
finalization potential does not grow. -/
theorem StateInv_transfer (conn conn' : ConnState) (h : StateInv conn)
    (hgok : GenOK conn') (hsess : conn'.session = conn.session)
    (hpot : potNat conn' ≤ potNat conn) : StateInv conn' := by
  obtain ⟨hg, hinv⟩ := h
  refine ⟨hgok, ?_⟩
  intro s hs
  rw [hsess] at hs
  obtain ⟨h1, h2, h3⟩ := hinv s hs
  exact ⟨by omega, h2, h3⟩

theorem playRound_inv (conn conn' : ConnState) (h : StateInv conn)
    (hp : playRound conn = some conn') : StateInv conn' := by
  unfold playRound at hp
  split at hp
  · cases hp
  · rename_i s hs
    split at hp
    · cases hp
    · rename_i rd hr
      cases hp
      obtain ⟨hg, hinv⟩ := h
      obtain ⟨h1, h2, h3⟩ := hinv s hs
      refine ⟨le_refl _, ?_⟩
      intro s' hs'
      cases hs'
      refine ⟨?_, h2, h3⟩
      show s.atlasWins + s.novaWins + pendNat { s with currentRound := s.currentRound + 1 } +
        (if conn.gen = conn.gen then 1 else 0) ≤ s.currentRound + 1
      rw [if_pos rfl]
      have hpend : pendNat { s with currentRound := s.currentRound + 1 } = pendNat s := rfl
      rw [hpend]
      have := potNat_le_one conn
      omega

theorem mutSession_gen (conn : ConnState) (g : ℕ) (f : SessionState → SessionState) :
    (mutSession conn g f).gen = conn.gen := by
  unfold mutSession; split <;> rfl

theorem mutSession_phase (conn : ConnState) (g : ℕ) (f : SessionState → SessionState) :
    (mutSession conn g f).phase = conn.phase := by
  unfold mutSession; split <;> rfl

theorem mutSession_frames (conn : ConnState) (g : ℕ) (f : SessionState → SessionState) :
    (mutSession conn g f).frames = conn.frames := by
  unfold mutSession; split <;> rfl

theorem mutSession_session (conn : ConnState) (g : ℕ) (f : SessionState → SessionState) :
    (mutSession conn g f).session =
      if g = conn.gen then conn.session.map f else conn.session := by
  unfold mutSession; split <;> simp_all

theorem GenOK_streaming_le (conn : ConnState) (ctl : StreamCtl) (g : ℕ)
    (hg : GenOK conn) (hph : conn.phase = .streaming ctl g) : g ≤ conn.gen := by
  unfold GenOK at hg
  rw [hph] at hg
  exact hg

theorem GenOK_analysisWait_le (conn : ConnState) (rd : RoundRecord) (g : ℕ)
    (hg : GenOK conn) (hph : conn.phase = .analysisWait rd g) : g ≤ conn.gen := by
  unfold GenOK at hg
  rw [hph] at hg
  exact hg

/-- One tick of the Atlas stream preserves the invariant. -/
theorem atlasTickStep_inv (conn : ConnState) (ctl : StreamCtl) (g : ℕ) (r : Rand3) (rc : ℚ)
    (h : StateInv conn) (hph : conn.phase = .streaming ctl g) :
    StateInv (atlasTickStep conn ctl g r rc) := by
  have hgle : g ≤ conn.gen := GenOK_streaming_le conn ctl g h.1 hph
  obtain ⟨hg, hinv⟩ := h
  unfold atlasTickStep
  by_cases hdone : ctl.atlasDone
  · rw [if_pos hdone]; exact ⟨hg, hinv⟩
  · rw [if_neg hdone]
    have hdf : ctl.atlasDone = false := by
      cases hb : ctl.atlasDone
      · rfl
      · exact absurd hb hdone
    by_cases hidx : ctl.atlasIdx < ctl.atlasClues.length
    · rw [if_pos hidx]
      refine StateInv_transfer conn _ ⟨hg, hinv⟩ ?_ rfl ?_
      · show g ≤ conn.gen
        exact hgle
      · refine le_of_eq ?_
        unfold potNat
        rw [hph]
    · rw [if_neg hidx]
      by_cases hnd : ctl.novaDone
      · -- rendezvous: Nova already done; set pending, emit analysis_complete
        rw [if_pos hnd]
        refine ⟨?_, ?_⟩
        · unfold GenOK
          simp only [mutSession_phase, mutSession_gen]
          exact hgle
        · intro s' hs'
          by_cases hgen : g = conn.gen
          · subst hgen
            cases hsess : conn.session with
            | none => simp [mutSession, hsess] at hs'
            | some s =>
              simp [mutSession, hsess] at hs'
              obtain ⟨h1, h2, h3⟩ := hinv s hsess
              subst hs'
              have hpoteq : potNat conn = 1 := by
                simp [potNat, hph, hdf]
              refine ⟨?_, h2, h3⟩
              simp only [potNat, pendNat, mutSession, hnd, eq_self_iff_true, if_true]
              simp
              omega
          · cases hsess : conn.session with
            | none => simp [mutSession, hsess, hgen] at hs'
            | some s =>
              simp [mutSession, hsess, hgen] at hs'
              obtain ⟨h1, h2, h3⟩ := hinv s' (by rw [hsess, hs'])
              have hpot0 : potNat conn = 0 := by
                simp [potNat, hph, hgen]
              rw [hpot0] at h1
              refine ⟨?_, h2, h3⟩
              simp only [potNat, mutSession, hgen, if_neg hgen]
              simp [hgen]
              omega
      · -- Atlas finishes first: store the guess, no rendezvous yet
        rw [if_neg hnd]
        have hndf : ctl.novaDone = false := by
          cases hb : ctl.novaDone
          · rfl
          · exact absurd hb hnd
        refine ⟨?_, ?_⟩
        · unfold GenOK
          simp only [mutSession_phase, mutSession_gen]
          exact hgle
        · intro s' hs'
          by_cases hgen : g = conn.gen
          · subst hgen
            cases hsess : conn.session with
            | none => simp [mutSession, hsess] at hs'
            | some s =>
              simp [mutSession, hsess] at hs'
              obtain ⟨h1, h2, h3⟩ := hinv s hsess
              subst hs'
              have hpoteq : potNat conn =
                  (if conn.gen = conn.gen ∧ (true && ctl.novaDone) = false
                   then 1 else 0) := by
                simp [potNat, hph, hdf, hndf]
              refine ⟨?_, h2, h3⟩
              simp only [potNat, pendNat, mutSession, hndf]
              simp [hndf]
              simp [potNat, pendNat, hph, hdf, hndf] at h1
              omega
          · cases hsess : conn.session with
            | none => simp [mutSession, hsess, hgen] at hs'
            | some s =>
              simp [mutSession, hsess, hgen] at hs'
              obtain ⟨h1, h2, h3⟩ := hinv s' (by rw [hsess, hs'])
              have hpot0 : potNat conn = 0 := by
                simp [potNat, hph, hgen]
              rw [hpot0] at h1
              refine ⟨?_, h2, h3⟩
              simp only [potNat, mutSession, hgen]
              simp [hgen]
              omega

/-- One tick of the Nova stream preserves the invariant. -/
theorem novaTickStep_inv (conn : ConnState) (ctl : StreamCtl) (g : ℕ) (r : Rand3) (rc : ℚ)
    (h : StateInv conn) (hph : conn.phase = .streaming ctl g) :
    StateInv (novaTickStep conn ctl g r rc) := by
  have hgle : g ≤ conn.gen := GenOK_streaming_le conn ctl g h.1 hph
  obtain ⟨hg, hinv⟩ := h
  unfold novaTickStep
  by_cases hdone : ctl.novaDone
  · rw [if_pos hdone]; exact ⟨hg, hinv⟩
  · rw [if_neg hdone]
    have hdf : ctl.novaDone = false := by
      cases hb : ctl.novaDone
      · rfl
      · exact absurd hb hdone
    by_cases hidx : ctl.novaIdx < ctl.novaClues.length
    · rw [if_pos hidx]
      refine StateInv_transfer conn _ ⟨hg, hinv⟩ ?_ rfl ?_
      · show g ≤ conn.gen
        exact hgle
      · refine le_of_eq ?_
        unfold potNat
        rw [hph]
    · rw [if_neg hidx]
      by_cases hnd : ctl.atlasDone
      · -- rendezvous: Atlas already done; set pending, emit analysis_complete
        rw [if_pos hnd]
        refine ⟨?_, ?_⟩
        · unfold GenOK
          simp only [mutSession_phase, mutSession_gen]
          exact hgle
        · intro s' hs'
          by_cases hgen : g = conn.gen
          · subst hgen
            cases hsess : conn.session with
            | none => simp [mutSession, hsess] at hs'
            | some s =>
              simp [mutSession, hsess] at hs'
              obtain ⟨h1, h2, h3⟩ := hinv s hsess
              subst hs'
              have hpoteq : potNat conn = 1 := by
                simp [potNat, hph, hdf]
              refine ⟨?_, h2, h3⟩
              simp only [potNat, pendNat, mutSession, hnd, eq_self_iff_true, if_true]
              simp
              omega
          · cases hsess : conn.session with
            | none => simp [mutSession, hsess, hgen] at hs'
            | some s =>
              simp [mutSession, hsess, hgen] at hs'
              obtain ⟨h1, h2, h3⟩ := hinv s' (by rw [hsess, hs'])
              have hpot0 : potNat conn = 0 := by
                simp [potNat, hph, hgen]
              rw [hpot0] at h1
              refine ⟨?_, h2, h3⟩
              simp only [potNat, mutSession, hgen]
              simp [hgen]
              omega
      · -- Nova finishes first: store the guess, no rendezvous yet
        rw [if_neg hnd]
        have hndf : ctl.atlasDone = false := by
          cases hb : ctl.atlasDone
          · rfl
          · exact absurd hb hnd
        refine ⟨?_, ?_⟩
        · unfold GenOK
          simp only [mutSession_phase, mutSession_gen]
          exact hgle
        · intro s' hs'
          by_cases hgen : g = conn.gen
          · subst hgen
            cases hsess : conn.session with
            | none => simp [mutSession, hsess] at hs'
            | some s =>
              simp [mutSession, hsess] at hs'
              obtain ⟨h1, h2, h3⟩ := hinv s hsess
              subst hs'
              refine ⟨?_, h2, h3⟩
              simp only [potNat, pendNat, mutSession, hndf]
              simp [hndf]
              simp [potNat, pendNat, hph, hdf, hndf] at h1
              omega
          · cases hsess : conn.session with
            | none => simp [mutSession, hsess, hgen] at hs'
            | some s =>
              simp [mutSession, hsess, hgen] at hs'
              obtain ⟨h1, h2, h3⟩ := hinv s' (by rw [hsess, hs'])
              have hpot0 : potNat conn = 0 := by
                simp [potNat, hph, hgen]
              rw [hpot0] at h1
              refine ⟨?_, h2, h3⟩
              simp only [potNat, mutSession, hgen]
              simp [hgen]
              omega

/-- `simulateDualAI` startup preserves the invariant. -/
theorem startStreams_inv (conn : ConnState) (rd : RoundRecord) (g : ℕ)
    (h : StateInv conn) (hph : conn.phase = .analysisWait rd g) :
    StateInv (startStreams conn rd g) := by
  have hgle : g ≤ conn.gen := GenOK_analysisWait_le conn rd g h.1 hph
  obtain ⟨hg, hinv⟩ := h
  unfold startStreams
  refine ⟨?_, ?_⟩
  · unfold GenOK
    simp only [mutSession_phase, mutSession_gen]
    exact hgle
  · intro s' hs'
    by_cases hgen : g = conn.gen
    · subst hgen
      cases hsess : conn.session with
      | none => simp [mutSession, hsess] at hs'
      | some s =>
        simp [mutSession, hsess] at hs'
        obtain ⟨h1, h2, h3⟩ := hinv s hsess
        subst hs'
        refine ⟨?_, h2, h3⟩
        simp only [potNat, pendNat, mutSession]
        simp
        simp [potNat, pendNat, hph] at h1
        omega
    · cases hsess : conn.session with
      | none => simp [mutSession, hsess, hgen] at hs'
      | some s =>
        simp [mutSession, hsess, hgen] at hs'
        obtain ⟨h1, h2, h3⟩ := hinv s' (by rw [hsess, hs'])
        have hpot0 : potNat conn = 0 := by
          simp [potNat, hph, hgen]
        rw [hpot0] at h1
        refine ⟨?_, h2, h3⟩
        simp only [potNat, mutSession]
        simp [hgen]
        omega

theorem finishRound_some (s : SessionState) (rd : RoundRecord) (p : SessionState × Frame)
    (h : finishRound s rd = some p) :
    ∃ gA gN, s.atlasGuess = some gA ∧ s.novaGuess = some gN ∧
      p = finishRoundCore s gA gN rd := by
  unfold finishRound at h
  split at h
  · rename_i gA gN hga hgn
    cases h
    exact ⟨gA, gN, hga, hgn, rfl⟩
  · cases h

theorem win_increment_sum (dA dN : ℤ) :
    (if dA < dN then (1 : ℕ) else 0) + (if dN < dA then 1 else 0) ≤ 1 := by
  by_cases h : dA < dN
  · simp [h, lt_asymm h]
  · simp [h]
    split <;> omega

/-- `request_results` preserves the invariant: it consumes the pending
payload and adds at most one round win. -/
theorem requestResults_inv (conn conn' : ConnState) (h : StateInv conn)
    (hstep : step conn (.msg .request_results) = some conn') : StateInv conn' := by
  simp only [step] at hstep
  split at hstep
  · cases hstep; exact h
  · rename_i s hs
    split at hstep
    · cases hstep; exact h
    · rename_i rd hpend
      split at hstep
      · cases hstep
      · rename_i s2 fr hfin
        obtain ⟨gA, gN, hga, hgn, hp⟩ :=
          finishRound_some { s with pendingRoundData := none } rd (s2, fr) hfin
        have hs2 : s2 = (finishRoundCore { s with pendingRoundData := none } gA gN rd).1 :=
          congrArg Prod.fst hp
        have hfr : fr = (finishRoundCore { s with pendingRoundData := none } gA gN rd).2 :=
          congrArg Prod.snd hp
        subst hs2
        subst hfr
        cases hstep
        obtain ⟨h1, h2, h3⟩ := h.2 s hs
        refine ⟨h.1, ?_⟩
        intro s' hs'
        cases hs'
        have hpot : potNat { conn with
            session := some (finishRoundCore { s with pendingRoundData := none } gA gN rd).1,
            frames := conn.frames ++
              [(finishRoundCore { s with pendingRoundData := none } gA gN rd).2] } =
            potNat conn := rfl
        refine ⟨?_, ?_, ?_⟩
        · rw [finishRoundCore_atlasWins, finishRoundCore_novaWins,
            finishRoundCore_currentRound]
          have hwin := win_increment_sum (roundedDistance gA rd.location)
            (roundedDistance gN rd.location)
          have hpendnat : pendNat
              (finishRoundCore { s with pendingRoundData := none } gA gN rd).1 = 0 := by
            have := finishRoundCore_pending { s with pendingRoundData := none } gA gN rd
            unfold pendNat
            rw [this]
          rw [hpendnat]
          have hpend1 : pendNat s = 1 := by
            unfold pendNat
            rw [hpend]
          rw [hpend1] at h1
          dsimp only at hpot ⊢
          omega
        · rw [finishRoundCore_atlasDistance]
          have := roundedDistance_nonneg gA rd.location
          dsimp only
          omega
        · rw [finishRoundCore_novaDistance]
          have := roundedDistance_nonneg gN rd.location
          dsimp only
          omega

theorem GenOK_gen_bump (conn c2 : ConnState) (hg : GenOK conn)
    (hp : c2.phase = conn.phase) (hgen : c2.gen = conn.gen + 1) : GenOK c2 := by
  unfold GenOK at hg ⊢
  rw [hp, hgen]
  cases hph : conn.phase with
  | analysisWait rd g =>
    rw [hph] at hg
    have hg2 : g ≤ conn.gen := hg
    show g ≤ conn.gen + 1
    omega
  | streaming ctl g =>
    rw [hph] at hg
    have hg2 : g ≤ conn.gen := hg
    show g ≤ conn.gen + 1
    omega
  | idle => trivial
  | countdownTimer c => trivial
  | playRoundWait => trivial

/-- Every protocol step preserves the invariant. -/
theorem step_inv (conn : ConnState) (e : SchedEv) (conn' : ConnState)
    (h : StateInv conn) (hstep : step conn e = some conn') : StateInv conn' := by
  cases e with
  | msg c =>
    cases c with
    | start_game rounds =>
      simp only [step] at hstep
      cases hstep
      refine ⟨trivial, ?_⟩
      intro s hs
      cases hs
      simp [freshSession, pendNat, potNat]
    | request_results => exact requestResults_inv conn conn' h hstep
    | next_round =>
      simp only [step] at hstep
      split at hstep
      · cases hstep; exact h
      · rename_i s hs
        split at hstep
        · cases hstep; exact h
        · exact playRound_inv conn conn' h hstep
    | show_scoreboard =>
      simp only [step] at hstep
      split at hstep
      · cases hstep; exact h
      · rename_i s hs
        cases hstep
        exact StateInv_transfer conn _ h h.1 rfl (le_refl _)
    | play_again rounds =>
      simp only [step] at hstep
      cases hstep
      refine ⟨GenOK_gen_bump conn _ h.1 rfl rfl, ?_⟩
      intro s hs
      cases hs
      have hpot := potNat_gen_bump conn
        { conn with
          session := some (freshSession rounds),
          gen := conn.gen + 1,
          frames := conn.frames ++ [.game_reset] } h.1 rfl rfl
      rw [hpot]
      simp [freshSession, pendNat]
  | countTick =>
    simp only [step] at hstep
    split at hstep
    any_goals (cases hstep; exact h)
    rename_i c hph
    cases hstep
    refine ⟨?_, ?_⟩
    · by_cases hc : c - 1 = 0 <;> simp [GenOK, hc]
    · intro s hs
      obtain ⟨h1, h2, h3⟩ := h.2 s hs
      refine ⟨?_, h2, h3⟩
      have hpot' : potNat { conn with
          phase := if c - 1 = 0 then Phase.playRoundWait else Phase.countdownTimer (c - 1),
          frames := conn.frames ++ [.countdown c] } = 0 := by
        by_cases hc : c - 1 = 0 <;> simp [potNat, hc]
      rw [hpot']
      omega
  | playRoundFire =>
    simp only [step] at hstep
    split at hstep
    · exact playRound_inv conn conn' h hstep
    all_goals (cases hstep; exact h)
  | analysisFire =>
    simp only [step] at hstep
    split at hstep
    any_goals (cases hstep; exact h)
    rename_i rd g hph
    cases hstep
    exact startStreams_inv conn rd g h hph
  | atlasTick r rc =>
    simp only [step] at hstep
    split at hstep
    any_goals (cases hstep; exact h)
    rename_i ctl g hph
    cases hstep
    exact atlasTickStep_inv conn ctl g r rc h hph
  | novaTick r rc =>
    simp only [step] at hstep
    split at hstep
    any_goals (cases hstep; exact h)
    rename_i ctl g hph
    cases hstep
    exact novaTickStep_inv conn ctl g r rc h hph

/-- Runs from an invariant state stay within the invariant. -/
theorem run_inv (sched : List SchedEv) (conn conn' : ConnState)
    (h : StateInv conn) (hrun : run conn sched = some conn') : StateInv conn' := by
  induction sched generalizing conn with
  | nil =>
    unfold run at hrun
    cases hrun
    exact h
  | cons e es ih =>
    unfold run at hrun
    split at hrun
    · cases hrun
    · rename_i c hc
      exact ih c (step_inv conn e c h hc) hrun

theorem initConn_inv : StateInv initConn := by
  refine ⟨trivial, ?_⟩
  intro s hs
  cases hs

/-! ## C2, C3: win crediting and cumulative distances -/

/-- C2: a finalized round credits a round win to exactly the agent whose
rounded round distance is strictly lower (no change on a tie), and along
every schedule of the protocol the round-win totals satisfy
`atlasWins + novaWins ≤ currentRound`. -/
theorem round_win_strictly_lowest :
    (∀ (s : SessionState) (gA gN : Guess) (rd : RoundRecord),
       (finishRoundCore s gA gN rd).1.atlasWins =
         s.atlasWins +
           (if roundedDistance gA rd.location < roundedDistance gN rd.location
            then 1 else 0) ∧
       (finishRoundCore s gA gN rd).1.novaWins =
         s.novaWins +
           (if roundedDistance gN rd.location < roundedDistance gA rd.location
            then 1 else 0)) ∧
    (∀ sched : List SchedEv, winsBounded (run initConn sched)) := by
  constructor
  · intro s gA gN rd
    exact ⟨finishRoundCore_atlasWins s gA gN rd, finishRoundCore_novaWins s gA gN rd⟩
  · intro sched
    cases hr : run initConn sched with
    | none => trivial
    | some c =>
      have hinv := run_inv sched initConn c initConn_inv hr
      unfold winsBounded
      dsimp only
      cases hs : c.session with
      | none => trivial
      | some s =>
        obtain ⟨h1, _, _⟩ := hinv.2 s hs
        show s.atlasWins + s.novaWins ≤ s.currentRound
        omega

theorem finalizeRounds_distances (s : SessionState)
    (L : List (Guess × Guess × RoundRecord)) :
    (finalizeRounds s L).atlasDistance =
      s.atlasDistance + (L.map (fun x => roundedDistance x.1 x.2.2.location)).sum ∧
    (finalizeRounds s L).novaDistance =
      s.novaDistance + (L.map (fun x => roundedDistance x.2.1 x.2.2.location)).sum := by
  induction L generalizing s with
  | nil => simp [finalizeRounds]
  | cons x L ih =>
    have hfold : finalizeRounds s (x :: L) =
        finalizeRounds
          ((finishRoundCore
            { s with atlasGuess := some x.1, novaGuess := some x.2.1 }
            x.1 x.2.1 x.2.2).1) L := rfl
    rw [hfold]
    obtain ⟨ihA, ihN⟩ := ih ((finishRoundCore
      { s with atlasGuess := some x.1, novaGuess := some x.2.1 } x.1 x.2.1 x.2.2).1)
    constructor
    · rw [ihA, finishRoundCore_atlasDistance]
      dsimp only
      rw [List.map_cons, List.sum_cons]
      ring
    · rw [ihN, finishRoundCore_novaDistance]
      dsimp only
      rw [List.map_cons, List.sum_cons]
      ring

/-- C3: after finalizing any list of rounds, each agent's cumulative
distance equals its starting total plus the sum of that agent's
per-round rounded distances; each per-round rounded distance is
non-negative, so the totals are non-decreasing, and along every protocol
schedule the session totals stay non-negative. -/
theorem cumulative_distance_sum :
    (∀ (s : SessionState) (L : List (Guess × Guess × RoundRecord)),
       (finalizeRounds s L).atlasDistance =
         s.atlasDistance + (L.map (fun x => roundedDistance x.1 x.2.2.location)).sum ∧
       (finalizeRounds s L).novaDistance =
         s.novaDistance + (L.map (fun x => roundedDistance x.2.1 x.2.2.location)).sum) ∧
    (∀ (g : Guess) (actual : Coord), 0 ≤ roundedDistance g actual) ∧
    (∀ (s : SessionState) (L : List (Guess × Guess × RoundRecord)),
       s.atlasDistance ≤ (finalizeRounds s L).atlasDistance ∧
       s.novaDistance ≤ (finalizeRounds s L).novaDistance) ∧
    (∀ sched : List SchedEv, distancesNonneg (run initConn sched)) := by
  refine ⟨finalizeRounds_distances, roundedDistance_nonneg, ?_, ?_⟩
  · intro s L
    obtain ⟨hA, hN⟩ := finalizeRounds_distances s L
    have hsumA : 0 ≤ (L.map (fun x => roundedDistance x.1 x.2.2.location)).sum := by
      apply List.sum_nonneg
      intro a ha
      obtain ⟨y, hy, rfl⟩ := List.mem_map.mp ha
      exact roundedDistance_nonneg _ _
    have hsumN : 0 ≤ (L.map (fun x => roundedDistance x.2.1 x.2.2.location)).sum := by
      apply List.sum_nonneg
      intro a ha
      obtain ⟨y, hy, rfl⟩ := List.mem_map.mp ha
      exact roundedDistance_nonneg _ _
    omega
  · intro sched
    cases hr : run initConn sched with
    | none => trivial
    | some c =>
      have hinv := run_inv sched initConn c initConn_inv hr
      unfold distancesNonneg
      dsimp only
      cases hs : c.session with
      | none => trivial
      | some s =>
        obtain ⟨_, h2, h3⟩ := hinv.2 s hs
        exact ⟨h2, h3⟩

/-! ## C4, C7: command guards -/

/-- C4: `request_results` is a no-op without a session or without a
pending payload; with a pending payload it clears the payload first and
then scores; after a successful finalization the pending payload is
gone, so a second `request_results` is a no-op — no round is finalized
twice. -/
theorem request_results_consumes_pending :
    (∀ conn : ConnState, conn.session = none →
       step conn (.msg .request_results) = some conn) ∧
    (∀ (conn : ConnState) (s : SessionState),
       conn.session = some s → s.pendingRoundData = none →
       step conn (.msg .request_results) = some conn) ∧
    (∀ (conn : ConnState) (s : SessionState) (rd : RoundRecord),
       conn.session = some s → s.pendingRoundData = some rd →
       step conn (.msg .request_results) =
         (match finishRound { s with pendingRoundData := none } rd with
          | none => none
          | some p =>
            some { conn with session := some p.1, frames := conn.frames ++ [p.2] })) ∧
    (∀ (conn conn' : ConnState) (s : SessionState) (rd : RoundRecord),
       conn.session = some s → s.pendingRoundData = some rd →
       step conn (.msg .request_results) = some conn' →
       (∃ s2, conn'.session = some s2 ∧ s2.pendingRoundData = none) ∧
       step conn' (.msg .request_results) = some conn') := by
  have base : ∀ (conn : ConnState) (s : SessionState) (rd : RoundRecord),
      conn.session = some s → s.pendingRoundData = some rd →
      step conn (.msg .request_results) =
        (match finishRound { s with pendingRoundData := none } rd with
         | none => none
         | some p =>
           some { conn with session := some p.1, frames := conn.frames ++ [p.2] }) := by
    intro conn s rd h1 h2
    simp only [step, h1, h2]
    cases hfin : finishRound { s with pendingRoundData := none } rd with
    | none => rfl
    | some p => rfl
  refine ⟨?_, ?_, base, ?_⟩
  · intro conn h
    simp [step, h]
  · intro conn s h1 h2
    simp [step, h1, h2]
  · intro conn conn' s rd h1 h2 hstep
    rw [base conn s rd h1 h2] at hstep
    cases hfin : finishRound { s with pendingRoundData := none } rd with
    | none => rw [hfin] at hstep; cases hstep
    | some p =>
      rw [hfin] at hstep
      cases hstep
      obtain ⟨gA, gN, hga, hgn, hp⟩ :=
        finishRound_some { s with pendingRoundData := none } rd p hfin
      have hpend : p.1.pendingRoundData = none := by
        rw [hp]
        exact finishRoundCore_pending { s with pendingRoundData := none } gA gN rd
      refine ⟨⟨p.1, rfl, hpend⟩, ?_⟩
      simp [step, hpend]

/-- Witness for C4 at concrete inputs: a connection without a session, a
session without a pending payload, and a session with a pending payload
and both guesses recorded. -/
theorem request_results_consumes_pending_witness :
    (initConn.session = none ∧
      step initConn (.msg .request_results) = some initConn) ∧
    ((ConnState.mk (some (freshSession [parisRecord])) 0 .idle []).session =
        some (freshSession [parisRecord]) ∧
      (freshSession [parisRecord]).pendingRoundData = none ∧
      step (ConnState.mk (some (freshSession [parisRecord])) 0 .idle [])
        (.msg .request_results) =
        some (ConnState.mk (some (freshSession [parisRecord])) 0 .idle [])) ∧
    ((ConnState.mk
        (some { freshSession [parisRecord] with
          atlasGuess := some ⟨48, 2⟩, novaGuess := some ⟨48, 3⟩,
          pendingRoundData := some parisRecord }) 0 .idle []).session =
        some { freshSession [parisRecord] with
          atlasGuess := some ⟨48, 2⟩, novaGuess := some ⟨48, 3⟩,
          pendingRoundData := some parisRecord } ∧
      step (ConnState.mk
        (some { freshSession [parisRecord] with
          atlasGuess := some ⟨48, 2⟩, novaGuess := some ⟨48, 3⟩,
          pendingRoundData := some parisRecord }) 0 .idle [])
        (.msg .request_results) =
        (match finishRound
          { { freshSession [parisRecord] with
              atlasGuess := some ⟨48, 2⟩, novaGuess := some ⟨48, 3⟩,
              pendingRoundData := some parisRecord } with pendingRoundData := none }
          parisRecord with
         | none => none
         | some p =>
           some { ConnState.mk
             (some { freshSession [parisRecord] with
               atlasGuess := some ⟨48, 2⟩, novaGuess := some ⟨48, 3⟩,
               pendingRoundData := some parisRecord }) 0 .idle [] with
             session := some p.1, frames := [] ++ [p.2] })) :=
  ⟨⟨rfl, request_results_consumes_pending.1 initConn rfl⟩,
   ⟨rfl, rfl,
    request_results_consumes_pending.2.1 _ (freshSession [parisRecord]) rfl rfl⟩,
   ⟨rfl,
    request_results_consumes_pending.2.2.1 _
      { freshSession [parisRecord] with
        atlasGuess := some ⟨48, 2⟩, novaGuess := some ⟨48, 3⟩,
        pendingRoundData := some parisRecord } parisRecord rfl rfl⟩⟩

/-- C7: `next_round` with no session, or with
`currentRoundIndex ≥ totalRounds`, produces no frame and no state
change; otherwise it re-enters the analysis phase for the next round,
emitting `round_start` and advancing the round index. -/
theorem next_round_guarded :
    (∀ conn : ConnState, conn.session = none →
       step conn (.msg .next_round) = some conn) ∧
    (∀ (conn : ConnState) (s : SessionState),
       conn.session = some s → s.totalRounds ≤ s.currentRound →
       step conn (.msg .next_round) = some conn) ∧
    (∀ (conn : ConnState) (s : SessionState) (rd : RoundRecord),
       conn.session = some s → s.currentRound < s.totalRounds →
       s.rounds.get? s.currentRound = some rd →
       step conn (.msg .next_round) = some
         { conn with
           session := some { s with currentRound := s.currentRound + 1 },
           phase := .analysisWait rd conn.gen,
           frames := conn.frames ++
             [.round_start (s.currentRound + 1) s.totalRounds rd.image_url rd.name] }) := by
  refine ⟨?_, ?_, ?_⟩
  · intro conn h
    simp [step, h]
  · intro conn s h1 h2
    simp [step, h1, h2]
  · intro conn s rd h1 h2 h3
    have h3g : s.rounds[s.currentRound]? = some rd := by
      rw [← List.get?_eq_getElem?]
      exact h3
    simp [step, playRound, h1, h2, h3g, not_le.mpr h2]

/-- Witness for C7 at concrete inputs: no session, an exhausted
session (`currentRound = totalRounds = 0`), and a one-round session
about to enter round 1. -/
theorem next_round_guarded_witness :
    (initConn.session = none ∧ step initConn (.msg .next_round) = some initConn) ∧
    ((ConnState.mk (some (freshSession [])) 0 .idle []).session =
        some (freshSession []) ∧
      (freshSession []).totalRounds ≤ (freshSession []).currentRound ∧
      step (ConnState.mk (some (freshSession [])) 0 .idle [])
        (.msg .next_round) = some (ConnState.mk (some (freshSession [])) 0 .idle [])) ∧
    ((freshSession [parisRecord]).currentRound < (freshSession [parisRecord]).totalRounds ∧
      (freshSession [parisRecord]).rounds.get? (freshSession [parisRecord]).currentRound =
        some parisRecord ∧
      step (ConnState.mk (some (freshSession [parisRecord])) 0 .idle [])
        (.msg .next_round) = some
        { ConnState.mk (some (freshSession [parisRecord])) 0 .idle [] with
          session := some { freshSession [parisRecord] with
            currentRound := (freshSession [parisRecord]).currentRound + 1 },
          phase := .analysisWait parisRecord 0,
          frames := [] ++
            [.round_start ((freshSession [parisRecord]).currentRound + 1)
              (freshSession [parisRecord]).totalRounds parisRecord.image_url
              parisRecord.name] }) :=
  ⟨⟨rfl, next_round_guarded.1 initConn rfl⟩,
   ⟨rfl, by decide,
    next_round_guarded.2.1 _ (freshSession []) rfl (by decide)⟩,
   ⟨by decide, by decide,
    next_round_guarded.2.2 _ (freshSession [parisRecord]) parisRecord rfl
      (by decide) (by decide)⟩⟩

/-! ## C5: the round_start payload -/

/-- Counterexample for C5: running `start_game` with a single round
record and letting the countdown and the round timer fire produces a
`round_start` frame that carries the round record's location name
("Paris, France") in its `locationName` field — the round-start event
does not withhold the true location name. -/
theorem round_start_withholds_name_cex :
    framesOf (run initConn
      [.msg (.start_game [parisRecord]), .countTick, .countTick, .countTick,
       .playRoundFire]) =
      [.game_starting, .countdown 3, .countdown 2, .countdown 1,
       .round_start 1 1 "paris.jpg" "Paris, France"] ∧
    (framesOf (run initConn
      [.msg (.start_game [parisRecord]), .countTick, .countTick, .countTick,
       .playRoundFire])).any (roundStartCarriesName parisRecord.name) = true := by
  constructor
  · rfl
  · rfl

/-- C5 (amended): the round-start event emitted on entering a round
carries the round number, total rounds, the photo reference, and also
the round record's location name — the true name is included in the
`round_start` payload, not withheld. -/
theorem round_start_carries_location_name :
    ∀ (conn : ConnState) (s : SessionState) (rd : RoundRecord),
      conn.session = some s → s.rounds.get? s.currentRound = some rd →
      playRound conn = some
        { conn with
          session := some { s with currentRound := s.currentRound + 1 },
          phase := .analysisWait rd conn.gen,
          frames := conn.frames ++
            [.round_start (s.currentRound + 1) s.totalRounds rd.image_url rd.name] } := by
  intro conn s rd h1 h2
  have h2g : s.rounds[s.currentRound]? = some rd := by
    rw [← List.get?_eq_getElem?]
    exact h2
  simp [playRound, h1, h2g]

/-- Witness for the amended C5 at a concrete one-round session. -/
theorem round_start_carries_location_name_witness :
    ((ConnState.mk (some (freshSession [parisRecord])) 0 .playRoundWait []).session =
        some (freshSession [parisRecord]) ∧
      (freshSession [parisRecord]).rounds.get?
        (freshSession [parisRecord]).currentRound = some parisRecord) ∧
    playRound (ConnState.mk (some (freshSession [parisRecord])) 0 .playRoundWait []) =
      some
        { ConnState.mk (some (freshSession [parisRecord])) 0 .playRoundWait [] with
          session := some { freshSession [parisRecord] with
            currentRound := (freshSession [parisRecord]).currentRound + 1 },
          phase := .analysisWait parisRecord 0,
          frames := [] ++
            [.round_start ((freshSession [parisRecord]).currentRound + 1)
              (freshSession [parisRecord]).totalRounds parisRecord.image_url
              parisRecord.name] } :=
  ⟨⟨rfl, by decide⟩,
   round_start_carries_location_name
     (ConnState.mk (some (freshSession [parisRecord])) 0 .playRoundWait [])
     (freshSession [parisRecord]) parisRecord rfl (by decide)⟩

/-! ## C1, C9: the rendezvous barrier -/

/-- `startStreams` produces exactly the fresh stream control state. -/
theorem startStreams_eq_streamingStart (s : SessionState) (g : ℕ) (rd : RoundRecord) :
    startStreams ⟨some s, g, .analysisWait rd g, []⟩ rd g = streamingStart s g rd := by
  simp [startStreams, mutSession, streamingStart, freshCtl]

theorem get?_some_lt {α : Type} (l : List α) (n : ℕ) (a : α) (h : l.get? n = some a) :
    n < l.length := by
  by_contra hc
  rw [List.get?_eq_none.mpr (le_of_not_lt hc)] at h
  cases h

theorem countAC_snoc (gs : List Frame) (f : Frame) :
    countAC (gs ++ [f]) = countAC gs + (if isAC f = true then 1 else 0) := by
  simp [countAC, List.countP_append, List.countP_cons]

theorem exists_mem_snoc (p : Frame → Bool) (gs : List Frame) (f0 : Frame) :
    (∃ f ∈ gs ++ [f0], p f = true) ↔ (∃ f ∈ gs, p f = true) ∨ p f0 = true := by
  constructor
  · rintro ⟨f, hf, hp⟩
    rcases List.mem_append.mp hf with h | h
    · exact Or.inl ⟨f, h, hp⟩
    · rw [List.mem_singleton.mp h] at hp
      exact Or.inr hp
  · rintro (⟨f, hf, hp⟩ | hp)
    · exact ⟨f, List.mem_append.mpr (Or.inl hf), hp⟩
    · exact ⟨f0, List.mem_append.mpr (Or.inr (List.mem_singleton.mpr rfl)), hp⟩

theorem OrderOK_snoc_nonAC (gs : List Frame) (f0 : Frame) (h : OrderOK gs)
    (hf : isAC f0 = false) : OrderOK (gs ++ [f0]) := by
  intro i hi
  by_cases hlt : i < gs.length
  · rw [List.get?_append hlt] at hi
    obtain ⟨⟨j, f, hj1, hj2, hj3⟩, ⟨k, f2, hk1, hk2, hk3⟩⟩ := h i hi
    have hjlt : j < gs.length := get?_some_lt gs j f hj2
    have hklt : k < gs.length := get?_some_lt gs k f2 hk2
    exact ⟨⟨j, f, hj1, by rw [List.get?_append hjlt]; exact hj2, hj3⟩,
      ⟨k, f2, hk1, by rw [List.get?_append hklt]; exact hk2, hk3⟩⟩
  · exfalso
    rw [List.get?_append_right (le_of_not_lt hlt)] at hi
    cases hd : i - gs.length with
    | zero =>
      rw [hd] at hi
      have : f0 = .analysis_complete := by
        simpa using hi
      rw [this] at hf
      simp [isAC] at hf
    | succ n =>
      rw [hd] at hi
      cases hi

theorem OrderOK_snoc_AC (gs : List Frame)
    (hnoAC : ∀ f ∈ gs, isAC f = false)
    (hA : ∃ f ∈ gs, isTerminal .atlas f = true)
    (hN : ∃ f ∈ gs, isTerminal .nova f = true) :
    OrderOK (gs ++ [Frame.analysis_complete]) := by
  intro i hi
  by_cases hlt : i < gs.length
  · exfalso
    rw [List.get?_append hlt] at hi
    have hmem := List.get?_mem hi
    have := hnoAC _ hmem
    simp [isAC] at this
  · constructor
    · obtain ⟨f, hf, hterm⟩ := hA
      obtain ⟨j, hj⟩ := List.mem_iff_get?.mp hf
      have hjlt : j < gs.length := get?_some_lt gs j f hj
      refine ⟨j, f, by omega, ?_, hterm⟩
      rw [List.get?_append hjlt]
      exact hj
    · obtain ⟨f, hf, hterm⟩ := hN
      obtain ⟨j, hj⟩ := List.mem_iff_get?.mp hf
      have hjlt : j < gs.length := get?_some_lt gs j f hj
      refine ⟨j, f, by omega, ?_, hterm⟩
      rw [List.get?_append hjlt]
      exact hj

/-- An Atlas stream tick preserves the stream invariant. -/
theorem atlasTickStep_streamInv (conn : ConnState) (ctl : StreamCtl) (g : ℕ) (r : Rand3)
    (rc : ℚ) (rd : RoundRecord) (p0 : Option RoundRecord)
    (h : StreamInv g rd p0 conn) (hph : conn.phase = .streaming ctl g) :
    StreamInv g rd p0 (atlasTickStep conn ctl g r rc) := by
  obtain ⟨ctl0, s, hgen, hph0, hsess, hrd, hA, hN, hcount, hpend, hga, hgn, hord⟩ := h
  rw [hph] at hph0
  injection hph0 with hctl hg0
  subst hctl
  unfold atlasTickStep
  by_cases hdone : ctl.atlasDone
  · rw [if_pos hdone]
    exact ⟨ctl, s, hgen, hph, hsess, hrd, hA, hN, hcount, hpend, hga, hgn, hord⟩
  · rw [if_neg hdone]
    have hdf : ctl.atlasDone = false := by
      cases hb : ctl.atlasDone
      · rfl
      · exact absurd hb hdone
    by_cases hidx : ctl.atlasIdx < ctl.atlasClues.length
    · rw [if_pos hidx]
      refine ⟨{ ctl with atlasIdx := ctl.atlasIdx + 1 }, s, hgen, rfl, hsess, hrd,
        ?_, ?_, ?_, hpend, hga, hgn, ?_⟩
      · rw [exists_mem_snoc]
        simpa [isTerminal] using hA
      · rw [exists_mem_snoc]
        simpa [isTerminal] using hN
      · simpa [countAC_snoc, isAC] using hcount
      · exact OrderOK_snoc_nonAC _ _ hord rfl
    · rw [if_neg hidx]
      by_cases hnd : ctl.novaDone
      · rw [if_pos hnd]
        have hcount0 : countAC conn.frames = 0 := by
          rw [hcount, if_neg]
          rintro ⟨h1, _⟩
          rw [hdf] at h1
          cases h1
        have hnoAC : ∀ f ∈ conn.frames ++
            [Frame.ai_stream .atlas "" true
              (some (makeAIGuess ctl.roundData.location .atlas r.r0 r.r1 r.r2))
              (some (Int.floor ((55 : ℚ) + rc * 35)))], isAC f = false := by
          intro f hf
          rcases List.mem_append.mp hf with hmem | hmem
          · have := (List.countP_eq_zero.mp hcount0) f hmem
            cases hb : isAC f
            · rfl
            · exact absurd hb this
          · rw [List.mem_singleton.mp hmem]
            rfl
        simp only [mutSession, hgen, eq_self_iff_true, if_true, hsess, Option.map_some']
        refine ⟨{ ctl with atlasDone := true },
          { s with
            atlasGuess := some (makeAIGuess ctl.roundData.location .atlas r.r0 r.r1 r.r2),
            pendingRoundData := some ctl.roundData },
          rfl, rfl, rfl, hrd, ?_, ?_, ?_, ?_, rfl, hgn, ?_⟩
        · constructor
          · intro _
            refine ⟨Frame.ai_stream .atlas "" true
              (some (makeAIGuess ctl.roundData.location .atlas r.r0 r.r1 r.r2))
              (some (Int.floor ((55 : ℚ) + rc * 35))), by simp, by simp [isTerminal]⟩
          · intro _
            rfl
        · constructor
          · intro _
            obtain ⟨f, hf, ht⟩ := hN.mp hnd
            exact ⟨f, by simp [hf], ht⟩
          · intro _
            exact hnd
        · rw [countAC_snoc, countAC_snoc, hcount0]
          simp [isAC, hnd]
        · simp [hrd, hnd]
        · refine OrderOK_snoc_AC _ hnoAC
            ⟨Frame.ai_stream .atlas "" true
              (some (makeAIGuess ctl.roundData.location .atlas r.r0 r.r1 r.r2))
              (some (Int.floor ((55 : ℚ) + rc * 35))), by simp, by simp [isTerminal]⟩
            ?_
          obtain ⟨f, hf, ht⟩ := hN.mp hnd
          exact ⟨f, by simp [hf], ht⟩
      · rw [if_neg hnd]
        have hndf : ctl.novaDone = false := by
          cases hb : ctl.novaDone
          · rfl
          · exact absurd hb hnd
        simp only [mutSession, hgen, eq_self_iff_true, if_true, hsess, Option.map_some']
        refine ⟨{ ctl with atlasDone := true },
          { s with
            atlasGuess := some (makeAIGuess ctl.roundData.location .atlas r.r0 r.r1 r.r2) },
          rfl, rfl, rfl, hrd, ?_, ?_, ?_, ?_, rfl, hgn, ?_⟩
        · constructor
          · intro _
            refine ⟨Frame.ai_stream .atlas "" true
              (some (makeAIGuess ctl.roundData.location .atlas r.r0 r.r1 r.r2))
              (some (Int.floor ((55 : ℚ) + rc * 35))), by simp, by simp [isTerminal]⟩
          · intro _
            rfl
        · rw [show ({ ctl with atlasDone := true } : StreamCtl).novaDone = ctl.novaDone
            from rfl]
          rw [exists_mem_snoc]
          simp only [isTerminal]
          simpa using hN
        · rw [countAC_snoc]
          simp only [isAC]
          rw [hcount]
          simp [hdf, hndf]
        · simpa [hndf] using hpend
        · exact OrderOK_snoc_nonAC _ _ hord rfl

/-- A Nova stream tick preserves the stream invariant. -/
theorem novaTickStep_streamInv (conn : ConnState) (ctl : StreamCtl) (g : ℕ) (r : Rand3)
    (rc : ℚ) (rd : RoundRecord) (p0 : Option RoundRecord)
    (h : StreamInv g rd p0 conn) (hph : conn.phase = .streaming ctl g) :
    StreamInv g rd p0 (novaTickStep conn ctl g r rc) := by
  obtain ⟨ctl0, s, hgen, hph0, hsess, hrd, hA, hN, hcount, hpend, hga, hgn, hord⟩ := h
  rw [hph] at hph0
  injection hph0 with hctl hg0
  subst hctl
  unfold novaTickStep
  by_cases hdone : ctl.novaDone
  · rw [if_pos hdone]
    exact ⟨ctl, s, hgen, hph, hsess, hrd, hA, hN, hcount, hpend, hga, hgn, hord⟩
  · rw [if_neg hdone]
    have hdf : ctl.novaDone = false := by
      cases hb : ctl.novaDone
      · rfl
      · exact absurd hb hdone
    by_cases hidx : ctl.novaIdx < ctl.novaClues.length
    · rw [if_pos hidx]
      refine ⟨{ ctl with novaIdx := ctl.novaIdx + 1 }, s, hgen, rfl, hsess, hrd,
        ?_, ?_, ?_, hpend, hga, hgn, ?_⟩
      · rw [exists_mem_snoc]
        simpa [isTerminal] using hA
      · rw [exists_mem_snoc]
        simpa [isTerminal] using hN
      · simpa [countAC_snoc, isAC] using hcount
      · exact OrderOK_snoc_nonAC _ _ hord rfl
    · rw [if_neg hidx]
      by_cases hnd : ctl.atlasDone
      · rw [if_pos hnd]
        have hcount0 : countAC conn.frames = 0 := by
          rw [hcount, if_neg]
          rintro ⟨_, h2⟩
          rw [hdf] at h2
          cases h2
        have hnoAC : ∀ f ∈ conn.frames ++
            [Frame.ai_stream .nova "" true
              (some (makeAIGuess ctl.roundData.location .nova r.r0 r.r1 r.r2))
              (some (Int.floor ((45 : ℚ) + rc * 45)))], isAC f = false := by
          intro f hf
          rcases List.mem_append.mp hf with hmem | hmem
          · have := (List.countP_eq_zero.mp hcount0) f hmem
            cases hb : isAC f
            · rfl
            · exact absurd hb this
          · rw [List.mem_singleton.mp hmem]
            rfl
        simp only [mutSession, hgen, eq_self_iff_true, if_true, hsess, Option.map_some']
        refine ⟨{ ctl with novaDone := true },
          { s with
            novaGuess := some (makeAIGuess ctl.roundData.location .nova r.r0 r.r1 r.r2),
            pendingRoundData := some ctl.roundData },
          rfl, rfl, rfl, hrd, ?_, ?_, ?_, ?_, hga, rfl, ?_⟩
        · constructor
          · intro _
            obtain ⟨f, hf, ht⟩ := hA.mp hnd
            exact ⟨f, by simp [hf], ht⟩
          · intro _
            exact hnd
        · constructor
          · intro _
            refine ⟨Frame.ai_stream .nova "" true
              (some (makeAIGuess ctl.roundData.location .nova r.r0 r.r1 r.r2))
              (some (Int.floor ((45 : ℚ) + rc * 45))), by simp, by simp [isTerminal]⟩
          · intro _
            rfl
        · rw [countAC_snoc, countAC_snoc, hcount0]
          simp [isAC, hnd]
        · simp [hrd, hnd]
        · refine OrderOK_snoc_AC _ hnoAC ?_
            ⟨Frame.ai_stream .nova "" true
              (some (makeAIGuess ctl.roundData.location .nova r.r0 r.r1 r.r2))
              (some (Int.floor ((45 : ℚ) + rc * 45))), by simp, by simp [isTerminal]⟩
          obtain ⟨f, hf, ht⟩ := hA.mp hnd
          exact ⟨f, by simp [hf], ht⟩
      · rw [if_neg hnd]
        have hndf : ctl.atlasDone = false := by
          cases hb : ctl.atlasDone
          · rfl
          · exact absurd hb hnd
        simp only [mutSession, hgen, eq_self_iff_true, if_true, hsess, Option.map_some']
        refine ⟨{ ctl with novaDone := true },
          { s with
            novaGuess := some (makeAIGuess ctl.roundData.location .nova r.r0 r.r1 r.r2) },
          rfl, rfl, rfl, hrd, ?_, ?_, ?_, ?_, hga, rfl, ?_⟩
        · rw [show ({ ctl with novaDone := true } : StreamCtl).atlasDone = ctl.atlasDone
            from rfl]
          rw [exists_mem_snoc]
          simp only [isTerminal]
          simpa using hA
        · constructor
          · intro _
            refine ⟨Frame.ai_stream .nova "" true
              (some (makeAIGuess ctl.roundData.location .nova r.r0 r.r1 r.r2))
              (some (Int.floor ((45 : ℚ) + rc * 45))), by simp, by simp [isTerminal]⟩
          · intro _
            rfl
        · rw [countAC_snoc]
          simp only [isAC]
          rw [hcount]
          simp [hdf, hndf]
        · simpa [hndf] using hpend
        · exact OrderOK_snoc_nonAC _ _ hord rfl

theorem streamingStart_streamInv (s : SessionState) (g : ℕ) (rd : RoundRecord) :
    StreamInv g rd s.pendingRoundData (streamingStart s g rd) := by
  refine ⟨freshCtl rd, { s with atlasGuess := none, novaGuess := none },
    rfl, rfl, rfl, rfl, ?_, ?_, ?_, ?_, rfl, rfl, ?_⟩
  · simp [freshCtl, streamingStart]
  · simp [freshCtl, streamingStart]
  · simp [countAC, freshCtl, streamingStart]
  · simp [freshCtl, streamingStart]
  · intro i hi
    simp [streamingStart] at hi

theorem streamInv_step (g : ℕ) (rd : RoundRecord) (p0 : Option RoundRecord)
    (conn : ConnState) (e : SchedEv) (h : StreamInv g rd p0 conn) (ht : isTick e = true) :
    ∃ conn', step conn e = some conn' ∧ StreamInv g rd p0 conn' := by
  obtain ⟨ctl, s, hgen, hph, hrest⟩ := h
  cases e with
  | atlasTick r rc =>
    refine ⟨atlasTickStep conn ctl g r rc, ?_,
      atlasTickStep_streamInv conn ctl g r rc rd p0 ⟨ctl, s, hgen, hph, hrest⟩ hph⟩
    simp only [step]
    rw [hph]
  | novaTick r rc =>
    refine ⟨novaTickStep conn ctl g r rc, ?_,
      novaTickStep_streamInv conn ctl g r rc rd p0 ⟨ctl, s, hgen, hph, hrest⟩ hph⟩
    simp only [step]
    rw [hph]
  | msg c => simp [isTick] at ht
  | countTick => simp [isTick] at ht
  | playRoundFire => simp [isTick] at ht
  | analysisFire => simp [isTick] at ht

theorem streamInv_run (sched : List SchedEv) (g : ℕ) (rd : RoundRecord)
    (p0 : Option RoundRecord) (conn : ConnState) (h : StreamInv g rd p0 conn)
    (ht : ∀ e ∈ sched, isTick e = true) :
    ∃ conn', run conn sched = some conn' ∧ StreamInv g rd p0 conn' := by
  induction sched generalizing conn with
  | nil => exact ⟨conn, rfl, h⟩
  | cons e es ih =>
    obtain ⟨c1, hc1, hinv1⟩ := streamInv_step g rd p0 conn e h (ht e (by simp))
    obtain ⟨c2, hc2, hinv2⟩ := ih c1 hinv1 (fun e2 he2 => ht e2 (by simp [he2]))
    refine ⟨c2, ?_, hinv2⟩
    unfold run
    rw [hc1]
    exact hc2

/-- C1: for every round, along every interleaving of the two streams'
timer ticks from a fresh `simulateDualAI` state, `analysis_complete` is
emitted at most once, exactly once when both streams have finished
(whichever finished first), every `analysis_complete` frame comes after
both agents' terminal stream events, and once it is emitted the
session's pending-finalization payload holds the round's record. -/
theorem analysis_complete_rendezvous :
    ∀ (s : SessionState) (g : ℕ) (rd : RoundRecord) (sched : List SchedEv),
      (∀ e ∈ sched, isTick e = true) →
      ∃ conn', run (streamingStart s g rd) sched = some conn' ∧
        countAC conn'.frames ≤ 1 ∧
        (∀ ctl g2, conn'.phase = .streaming ctl g2 →
           ctl.atlasDone = true → ctl.novaDone = true → countAC conn'.frames = 1) ∧
        OrderOK conn'.frames ∧
        (1 ≤ countAC conn'.frames →
          ∃ s', conn'.session = some s' ∧ s'.pendingRoundData = some rd) := by
  intro s g rd sched ht
  obtain ⟨conn', hrun, ctl, s', hgen, hph, hsess, hrd, hA, hN, hcount, hpend, hga, hgn,
    hord⟩ :=
    streamInv_run sched g rd s.pendingRoundData (streamingStart s g rd)
      (streamingStart_streamInv s g rd) ht
  refine ⟨conn', hrun, ?_, ?_, hord, ?_⟩
  · rw [hcount]
    split <;> omega
  · intro ctl2 g2 hph2 ha hn
    rw [hph] at hph2
    injection hph2 with h1 h2
    subst h1
    rw [hcount, if_pos ⟨ha, hn⟩]
  · intro hge
    refine ⟨s', hsess, ?_⟩
    rw [hpend]
    by_cases hb : ctl.atlasDone = true ∧ ctl.novaDone = true
    · rw [if_pos hb]
    · rw [hcount, if_neg hb] at hge
      omega

/-- Witness for C1 at a concrete full round. -/
theorem analysis_complete_rendezvous_witness :
    (∀ e ∈ dualTickSched, isTick e = true) ∧
    (∃ conn', run (streamingStart (freshSession [parisRecord]) 1 parisRecord)
        dualTickSched = some conn' ∧
      countAC conn'.frames ≤ 1 ∧
      (∀ ctl g2, conn'.phase = .streaming ctl g2 →
         ctl.atlasDone = true → ctl.novaDone = true → countAC conn'.frames = 1) ∧
      OrderOK conn'.frames ∧
      (1 ≤ countAC conn'.frames →
        ∃ s', conn'.session = some s' ∧ s'.pendingRoundData = some parisRecord)) :=
  ⟨by decide,
   analysis_complete_rendezvous (freshSession [parisRecord]) 1 parisRecord dualTickSched
     (by decide)⟩

/-- C9 (amended): within one round's analysis — starting from the state
where `simulateDualAI` has cleared the guesses and no payload is
pending — whenever the pending-finalization payload becomes non-null,
both agents' guesses are present in the session, so scoring triggered
at that point never reads a missing guess. -/
theorem pending_implies_both_guesses :
    ∀ (s : SessionState) (g : ℕ) (rd : RoundRecord) (sched : List SchedEv),
      s.pendingRoundData = none →
      (∀ e ∈ sched, isTick e = true) →
      ∃ conn', run (streamingStart s g rd) sched = some conn' ∧
        ∀ s', conn'.session = some s' → s'.pendingRoundData ≠ none →
          s'.atlasGuess.isSome = true ∧ s'.novaGuess.isSome = true := by
  intro s g rd sched hp0 ht
  obtain ⟨conn', hrun, ctl, s2, hgen, hph, hsess, hrd, hA, hN, hcount, hpend, hga, hgn,
    hord⟩ :=
    streamInv_run sched g rd s.pendingRoundData (streamingStart s g rd)
      (streamingStart_streamInv s g rd) ht
  refine ⟨conn', hrun, ?_⟩
  intro s' hs' hne
  rw [hsess] at hs'
  injection hs' with hs'
  subst hs'
  rw [hpend] at hne
  by_cases hb : ctl.atlasDone = true ∧ ctl.novaDone = true
  · exact ⟨by rw [hga, hb.1], by rw [hgn, hb.2]⟩
  · rw [if_neg hb, hp0] at hne
    exact absurd rfl hne

/-- Witness for the amended C9 at a concrete full round. -/
theorem pending_implies_both_guesses_witness :
    (freshSession [parisRecord]).pendingRoundData = none ∧
    (∀ e ∈ dualTickSched, isTick e = true) ∧
    (∃ conn', run (streamingStart (freshSession [parisRecord]) 1 parisRecord)
        dualTickSched = some conn' ∧
      ∀ s', conn'.session = some s' → s'.pendingRoundData ≠ none →
        s'.atlasGuess.isSome = true ∧ s'.novaGuess.isSome = true) :=
  ⟨rfl, by decide,
   pending_implies_both_guesses (freshSession [parisRecord]) 1 parisRecord dualTickSched
     rfl (by decide)⟩

/-- Counterexample for C9: after `staleSched` the session holds a
non-null pending-finalization payload (round 1's record) while the
current-guesses map is empty — and a `request_results` arriving in that
state makes the scoring step read a missing guess (an uncaught
exception, modelled as `none`). -/
theorem pending_without_guesses_cex :
    pendingWithoutGuess (run initConn staleSched) = true ∧
    run initConn (staleSched ++ [.msg .request_results]) = none := by
  constructor
  · rfl
  · rfl

end MapMind
